import Mathlib

/-!
Verification of the androsync core (`src/core/`) against its natural-language
specification.  The Python sources are shallowly embedded: Python strings are
Lean `String`s manipulated through character lists, machine integers are `Int`
(Python ints are unbounded), fallible operations return `Option`/`Except`, and
the external ADB channel and the local filesystem are explicit environment
parameters.  Every definition is translated from the corresponding function in
`src/core/adb.py`, `src/core/scanner.py`, `src/core/categories.py` or
`src/core/backup.py`; definitions written from the specification's wording (for
refinement statements) say so in their doc comments.
-/

/-! ## Python string primitives (character-list semantics) -/

/-- Characters Python's `str.strip()` removes. -/
def isPySpace (c : Char) : Bool :=
  c = ' ' || c = '\t' || c = '\n' || c = '\r' || c = '\x0b' || c = '\x0c'

/-- Python `str.strip()` on the underlying character list. -/
def pyStripList (l : List Char) : List Char :=
  ((l.dropWhile isPySpace).reverse.dropWhile isPySpace).reverse

/-- Python `str.strip()`. -/
def pyStrip (s : String) : String :=
  ⟨pyStripList s.toList⟩

/-- Prepend a character to the first piece of a split result. -/
def consHead (c : Char) : List (List Char) → List (List Char)
  | [] => [[c]]
  | h :: t => (c :: h) :: t

/-- Python `s.split(sep)` (single-character separator, no maxsplit), on
character lists.  `split` of the empty string is `[[]]`, matching Python. -/
def splitCharList (sep : Char) : List Char → List (List Char)
  | [] => [[]]
  | c :: rest =>
    if c = sep then [] :: splitCharList sep rest
    else consHead c (splitCharList sep rest)

/-- Python `s.split(sep)` for a single-character separator. -/
def pySplit (s : String) (sep : Char) : List String :=
  (splitCharList sep s.toList).map (fun l => ⟨l⟩)

/-- Python `s.split(sep, maxsplit)` on character lists: at most `fuel`
separators are consumed, the remainder is kept verbatim. -/
def splitMaxGo (sep : Char) : Nat → List Char → List (List Char)
  | _, [] => [[]]
  | 0, l => [l]
  | fuel + 1, c :: rest =>
    if c = sep then [] :: splitMaxGo sep fuel rest
    else consHead c (splitMaxGo sep (fuel + 1) rest)

/-- Python `s.split(sep, maxsplit)` for a single-character separator. -/
def pySplitMax (s : String) (sep : Char) (maxsplit : Nat) : List String :=
  (splitMaxGo sep maxsplit s.toList).map (fun l => ⟨l⟩)

/-- Python `sep.join(parts)` for a single-character separator, on lists. -/
def joinChar (sep : Char) : List (List Char) → List Char
  | [] => []
  | [x] => x
  | x :: y :: t => x ++ sep :: joinChar sep (y :: t)

/-- Python `sep.join(parts)` for a single-character separator. -/
def pyJoinChar (sep : Char) (parts : List String) : String :=
  ⟨joinChar sep (parts.map String.toList)⟩

/-- Python `s.startswith(pre)`. -/
def pyStartsWith (s pre : String) : Bool :=
  pre.toList.isPrefixOf s.toList

/-- Python `s[n:]` (drop the first `n` characters). -/
def pyDrop (s : String) (n : Nat) : String :=
  ⟨s.toList.drop n⟩

/-- Python `len(s)` (number of characters). -/
def pyLen (s : String) : Nat :=
  s.toList.length

/-- Python `s.lstrip(c)` for a single character. -/
def pyLstripChar (s : String) (c : Char) : String :=
  ⟨s.toList.dropWhile (· = c)⟩

/-- Python `c in s` for a single character. -/
def pyContainsChar (s : String) (c : Char) : Bool :=
  s.toList.contains c

/-- Python `needle in hay` (substring containment). -/
def pyContainsStr (hay needle : String) : Bool :=
  decide (List.IsInfix needle.toList hay.toList)

/-- Python `s.lower()` (ASCII scope, which covers every extension table). -/
def pyLower (s : String) : String :=
  ⟨s.toList.map Char.toLower⟩

/-- Python `str.endswith` is not needed; `os.path.join(a, b)` for POSIX paths:
`b` absolute wins, empty `a` yields `b`, otherwise a single `/` is inserted
unless `a` already ends with one. -/
def pyPathJoin (a b : String) : String :=
  if pyStartsWith b "/" then b
  else if a = "" then b
  else if a.toList.getLast? = some '/' then a ++ b
  else a ++ "/" ++ b

/-- Validity of the digit part accepted by Python `int()`: non-empty digits,
`_` allowed only between digits. -/
def noDoubleUnderscore : List Char → Bool
  | '_' :: '_' :: _ => false
  | _ :: rest => noDoubleUnderscore rest
  | [] => true

/-- Digit-group validity for Python `int()`. -/
def validIntDigits (ds : List Char) : Bool :=
  decide (ds ≠ []) && ds.all (fun c => c.isDigit || c = '_') &&
  decide (ds.head? ≠ some '_') && decide (ds.getLast? ≠ some '_') &&
  noDoubleUnderscore ds

/-- Numeric value of a digit list (underscores already removed). -/
def digitsVal (ds : List Char) : Nat :=
  ds.foldl (fun acc c => acc * 10 + (c.toNat - '0'.toNat)) 0

/-- Python `int(s)`: strips whitespace, accepts an optional sign and a
digit group with `_` separators; `none` models the `ValueError`. -/
def pyInt (s : String) : Option Int :=
  let t := (pyStrip s).toList
  let signAndDigits : Int × List Char :=
    match t with
    | '+' :: rest => (1, rest)
    | '-' :: rest => (-1, rest)
    | _ => (1, t)
  if validIntDigits signAndDigits.2 then
    some (signAndDigits.1 * (digitsVal (signAndDigits.2.filter (· ≠ '_')) : Int))
  else none

/-! ## Category tables and classifier (`src/core/scanner.py` 13-104,
`src/core/categories.py` 10-129; the two modules carry identical tables and an
extensionally identical classifier) -/

/-- `FILE_CATEGORIES['media']['extensions']`. -/
def mediaExtensions : List String :=
  [".jpg", ".jpeg", ".png", ".gif", ".webp", ".heic", ".heif", ".bmp", ".raw",
   ".cr2", ".nef", ".arw",
   ".mp4", ".mkv", ".avi", ".mov", ".wmv", ".flv", ".webm", ".3gp", ".m4v"]

/-- `FILE_CATEGORIES['documents']['extensions']`. -/
def documentsExtensions : List String :=
  [".pdf", ".doc", ".docx", ".xls", ".xlsx", ".ppt", ".pptx", ".txt", ".odt",
   ".ods", ".odp", ".rtf", ".csv", ".md", ".json", ".xml", ".html", ".htm"]

/-- `FILE_CATEGORIES['apk']['extensions']`. -/
def apkExtensions : List String :=
  [".apk", ".xapk", ".apkm"]

/-- `FILE_CATEGORIES`: category id → extension table (Python sets modelled as
lists in literal order; only membership is ever used).  The `'other'` table is
empty by design. -/
def FILE_CATEGORIES : List (String × List String) :=
  [("media", mediaExtensions), ("documents", documentsExtensions),
   ("apk", apkExtensions), ("other", [])]

/-- Extension table of a category id (`[]` for ids absent from
`FILE_CATEGORIES`, which `get_extensions_for_categories` ignores). -/
def categoryTable (cat : String) : List String :=
  ((FILE_CATEGORIES.find? (fun e => e.1 = cat)).map Prod.snd).getD []

/-- `ALL_KNOWN_EXTENSIONS`: union over all category tables. -/
def ALL_KNOWN_EXTENSIONS : List String :=
  (FILE_CATEGORIES.map Prod.snd).flatten

/-- `get_extensions_for_categories` (scanner.py 45-56): fold over the selected
ids, accumulating tables of known non-`other` ids and an `include_other`
flag. -/
def getExtsStep (acc : List String × Bool) (cat : String) :
    List String × Bool :=
  if cat = "other" then (acc.1, true)
  else if (FILE_CATEGORIES.find? (fun e => e.1 = cat)).isSome then
    (acc.1 ++ categoryTable cat, acc.2)
  else acc

/-- `get_extensions_for_categories` (scanner.py 45-56), the fold itself. -/
def get_extensions_for_categories (categories : List String) :
    List String × Bool :=
  categories.foldl getExtsStep ([], false)

/-- Extension extraction in `is_file_in_categories` (scanner.py 97):
`'.' + filename.rsplit('.', 1)[-1].lower() if '.' in filename else ''`. -/
def fileExtOf (filename : String) : String :=
  if pyContainsChar filename '.' then
    "." ++ pyLower ((pySplit filename '.').getLastD "")
  else ""

/-- `is_file_in_categories` (scanner.py 95-104). -/
def is_file_in_categories (filename : String) (categories : List String) :
    Bool :=
  let ext := fileExtOf filename
  let exts := get_extensions_for_categories categories
  if ext ∈ exts.1 then true
  else if exts.2 ∧ ext ∉ ALL_KNOWN_EXTENSIONS then true
  else false

/-- `IMAGE_EXTENSIONS` (scanner.py 35). -/
def IMAGE_EXTENSIONS : List String :=
  [".jpg", ".jpeg", ".png", ".gif", ".webp", ".heic", ".heif", ".bmp", ".raw",
   ".cr2", ".nef", ".arw"]

/-- `VIDEO_EXTENSIONS` (scanner.py 36). -/
def VIDEO_EXTENSIONS : List String :=
  [".mp4", ".mkv", ".avi", ".mov", ".wmv", ".flv", ".webm", ".3gp", ".m4v"]

/-- `is_media_file` (scanner.py 186-200). -/
def is_media_file (filename : String) : Bool × String :=
  let ext0 :=
    if pyContainsChar filename '.' then
      (pySplit (pyLower filename) '.').getLastD ""
    else ""
  let ext := "." ++ ext0
  if ext ∈ IMAGE_EXTENSIONS then (true, "photo")
  else if ext ∈ VIDEO_EXTENSIONS then (true, "video")
  else (false, "")

/-- `SKIP_DIRECTORIES` (scanner.py 108-116). -/
def SKIP_DIRECTORIES : List String :=
  ["Android/data", "Android/obb", ".thumbnails", ".cache", "cache", ".trash",
   "lost+found"]

/-- `EXPAND_DIRECTORIES` (scanner.py 119-121). -/
def EXPAND_DIRECTORIES : List String :=
  ["Android/media"]

/-! ## Scanner data model and folder aggregation (`src/core/scanner.py`
124-357) -/

/-- File record produced by `find_media_files` (adb.py 427-433). -/
structure FileInfo where
  path : String
  name : String
  size : Int
  mtime : String
  is_dir : Bool
deriving DecidableEq

/-- `MediaFolder` (scanner.py 124-136).  The `subfolders` field of the source
dataclass defaults to `[]` and is never written anywhere in the repository, so
it is omitted (Lean structures cannot be recursive). -/
structure MediaFolder where
  path : String
  name : String
  file_count : Nat
  photo_count : Nat
  video_count : Nat
  total_size : Int
  storage_type : String
  storage_root : String
  files : List FileInfo
deriving DecidableEq

/-- Per-key accumulator of `aggregate_files_to_folders` (scanner.py
316-323). -/
structure FolderStats where
  name : String
  files : Nat
  photos : Nat
  videos : Nat
  size : Int
  file_list : List FileInfo
deriving DecidableEq

/-- `should_expand_directory` (scanner.py 265-270). -/
def should_expand_directory (relative_path : String) : Bool :=
  EXPAND_DIRECTORIES.any
    (fun expand =>
      relative_path = expand || pyStartsWith relative_path (expand ++ "/"))

/-- Relative-path computation of `aggregate_files_to_folders` (scanner.py
296-299): strip the storage-root character prefix, then `lstrip('/')`. -/
def relativeToRoot (path storage_root : String) : String :=
  if pyStartsWith path storage_root then
    pyLstripChar (pyDrop path (pyLen storage_root)) '/'
  else path

/-- Grouping-key computation of `aggregate_files_to_folders` (scanner.py
301-311): three segments under an expand directory, otherwise the first
segment (the final `else` branch of the source is unreachable since a split is
never empty, but is kept). -/
def groupKey (relative : String) : String :=
  let parts := pySplit relative '/'
  if 3 ≤ parts.length ∧ should_expand_directory (pyJoinChar '/' (parts.take 2)) = true then
    pyJoinChar '/' (parts.take 3)
  else if 1 ≤ parts.length then parts.headD ""
  else relative

/-- Ordered-dict update: replace the value at an existing key, leaving
insertion order intact. -/
def dictUpdate (m : List (String × FolderStats)) (k : String)
    (g : FolderStats → FolderStats) : List (String × FolderStats) :=
  match m with
  | [] => []
  | (k0, v) :: rest =>
    if k0 = k then (k0, g v) :: rest else (k0, v) :: dictUpdate rest k g

/-- Loop body of `aggregate_files_to_folders` (scanner.py 292-336): insert the
key on first sight, then bump file count, byte total, file list and the
photo/video tallies. -/
def aggStep (storage_root : String) (m : List (String × FolderStats))
    (fi : FileInfo) : List (String × FolderStats) :=
  let relative := relativeToRoot fi.path storage_root
  let top_level := groupKey relative
  let top_level_path := storage_root ++ "/" ++ top_level
  let m1 :=
    if m.any (fun e => e.1 = top_level_path) then m
    else m ++ [(top_level_path, ⟨top_level, 0, 0, 0, 0, []⟩)]
  dictUpdate m1 top_level_path
    (fun s =>
      let s1 : FolderStats :=
        { s with files := s.files + 1, size := s.size + fi.size,
                 file_list := s.file_list ++ [fi] }
      let im := is_media_file fi.name
      if im.1 then
        if im.2 = "photo" then { s1 with photos := s1.photos + 1 }
        else { s1 with videos := s1.videos + 1 }
      else s1)

/-- Stable insertion of `x` after every element `y` with `le y x` (the order
`list.sort(key=..., reverse=True)` produces: descending, ties kept in
insertion order). -/
def stableInsert (le : MediaFolder → MediaFolder → Bool) (x : MediaFolder) :
    List MediaFolder → List MediaFolder
  | [] => [x]
  | y :: ys => if le y x then y :: stableInsert le x ys else x :: y :: ys

/-- Stable sort modelling Python's `list.sort` (Timsort is stable; any stable
sort has the same result). -/
def pyStableSort (le : MediaFolder → MediaFolder → Bool) :
    List MediaFolder → List MediaFolder
  | [] => []
  | x :: xs => stableInsert le x (pyStableSort le xs)

/-- Key order of `folders.sort(key=lambda f: f.total_count, reverse=True)`
(scanner.py 355); `total_count` is the `file_count` property. -/
def folderSortKey (a b : MediaFolder) : Bool :=
  decide (b.file_count ≤ a.file_count)

/-- `aggregate_files_to_folders` (scanner.py 273-357). -/
def aggregate_files_to_folders (files : List FileInfo)
    (storage_root storage_type : String) : List MediaFolder :=
  let stats := files.foldl (aggStep storage_root) []
  let folders := stats.map
    (fun e =>
      { path := e.1, name := e.2.name, file_count := e.2.files,
        photo_count := e.2.photos, video_count := e.2.videos,
        total_size := e.2.size, storage_type := storage_type,
        storage_root := storage_root, files := e.2.file_list : MediaFolder })
  pyStableSort folderSortKey folders

/-! ## Remote channel model and listing adapter (`src/core/adb.py` 103-137,
364-437) -/

/-- Result of `shell_command` (adb.py 103-137): captured stdout, or the
`ADBError` raised on a non-zero exit status or timeout. -/
inductive ShellResult where
  | ok (out : String)
  | err
deriving DecidableEq

/-- The remote command channel: each issued command string yields a fixed
result (the attached device answering deterministically during one scan). -/
def ShellEnv : Type := String → ShellResult

/-- Python `sep.join(parts)` for a multi-character separator. -/
def pyJoinStr (sep : String) : List String → String
  | [] => ""
  | [x] => x
  | x :: y :: t => x ++ sep ++ pyJoinStr sep (y :: t)

/-- `ext_pattern` of `find_media_files` (adb.py 384-390): one
`-iname "*.<ext>"` clause per extension, joined with `-o`. -/
def extPattern (extensions : List String) : String :=
  pyJoinStr " -o "
    (extensions.map (fun ext => "-iname \"*." ++ pyLstripChar ext '.' ++ "\""))

/-- `exclude_cmd` of `find_media_files` (adb.py 393-396): a prune clause per
excluded path pattern. -/
def excludeCmd (exclude_patterns : List String) : String :=
  exclude_patterns.foldl
    (fun acc pattern => acc ++ " -path \"*/" ++ pattern ++ "/*\" -prune -o")
    ""

/-- `find_cmd` of `find_media_files` (adb.py 400-405). -/
def buildFindCmd (storage_root : String) (extensions : List String)
    (exclude_patterns : List String) : String :=
  "find \"" ++ storage_root ++ "\" " ++ excludeCmd exclude_patterns ++
  " -type f \\( " ++ extPattern extensions ++
  " \\) -printf \"%s|%T@|%p\\n\" 2>/dev/null"

/-- Per-line record construction of `find_media_files` (adb.py 417-433),
folded over the output lines; malformed lines (wrong field count after
`split('|', 2)`, or a size rejected by `int()`) are skipped. -/
def parseLineStep (acc : List FileInfo) (line : String) : List FileInfo :=
  if line = "" ∨ pyContainsChar line '|' = false then acc
  else
    let parts := pySplitMax line '|' 2
    if parts.length ≠ 3 then acc
    else
      match pyInt (parts.headD "") with
      | none => acc
      | some size =>
        let mtime := (pySplit (parts.getD 1 "") '.').headD ""
        let path := parts.getD 2 ""
        let name :=
          if pyContainsChar path '/' then (pySplit path '/').getLastD ""
          else path
        acc ++ [⟨path, name, size, mtime, false⟩]

/-- `find_media_files`'s parsing loop over the output lines (adb.py
412-435). -/
def parseFindOutput (output : String) : List FileInfo :=
  (pySplit (pyStrip output) '\n').foldl parseLineStep []

/-- `find_media_files` (adb.py 364-437), also returning the list of remote
commands it issued.  An `ADBError` from the channel yields `[]`. -/
def find_media_files (shell : ShellEnv) (storage_root : String)
    (extensions exclude_patterns : List String) :
    List FileInfo × List String :=
  let cmd := buildFindCmd storage_root extensions exclude_patterns
  match shell cmd with
  | .err => ([], [cmd])
  | .ok out => (parseFindOutput out, [cmd])

/-! ## Storage root resolver (`src/core/scanner.py` 203-262) -/

/-- Ordered-dict assignment `roots[k] = v`: overwrite in place if the key
exists, append otherwise. -/
def dictInsert (m : List (String × String)) (k v : String) :
    List (String × String) :=
  match m with
  | [] => [(k, v)]
  | (k0, v0) :: rest =>
    if k0 = k then (k0, v) :: rest else (k0, v0) :: dictInsert rest k v

/-- Internal-storage path resolution of `get_storage_roots` (scanner.py
214-223): `readlink -f /sdcard`, falling back to `/storage/emulated/0` on
`ADBError` or empty output. -/
def internalPathOf (shell : ShellEnv) : String :=
  match shell "readlink -f /sdcard" with
  | .err => "/storage/emulated/0"
  | .ok out =>
    let real_path := pyStrip out
    if real_path ≠ "" then real_path else "/storage/emulated/0"

/-- Symlink resolution of one `/storage/` entry (scanner.py 237-244): the raw
candidate path stands in for itself when resolution fails or is empty. -/
def resolveEntry (shell : ShellEnv) (potential_path : String) : String :=
  match shell ("readlink -f \"" ++ potential_path ++ "\" 2>/dev/null") with
  | .err => potential_path
  | .ok out =>
    let real_path := pyStrip out
    if real_path = "" then potential_path else real_path

/-- Loop body of `get_storage_roots` (scanner.py 230-258) over one line of the
`ls -1 /storage/` output; the accumulator is `(roots, seen_real_paths)`. -/
def storageRootStep (shell : ShellEnv)
    (acc : List (String × String) × List String) (line0 : String) :
    List (String × String) × List String :=
  let line := pyStrip line0
  if line = "" ∨ line = "emulated" ∨ line = "self" then acc
  else
    let potential_path := "/storage/" ++ line
    let real_path := resolveEntry shell potential_path
    if real_path ∈ acc.2 then acc
    else
      match shell ("[ -d \"" ++ potential_path ++ "\" ] && echo \"ok\"") with
      | .err => acc
      | .ok check =>
        if pyContainsStr check "ok" then
          (dictInsert acc.1 potential_path ("SD Card (" ++ line ++ ")"),
           acc.2 ++ [real_path])
        else acc

/-- `get_storage_roots` (scanner.py 203-262), instrumented with the
`seen_real_paths` list (the canonical path credited to each accepted root, in
acceptance order). -/
def get_storage_roots_aux (shell : ShellEnv) :
    List (String × String) × List String :=
  let internal_path := internalPathOf shell
  let start := ([(internal_path, "Interno")], [internal_path])
  match shell "ls -1 /storage/ 2>/dev/null" with
  | .err => start
  | .ok out =>
    (pySplit (pyStrip out) '\n').foldl (storageRootStep shell) start

/-- `get_storage_roots` as the source returns it: path → display label. -/
def get_storage_roots (shell : ShellEnv) : List (String × String) :=
  (get_storage_roots_aux shell).1

/-! ## Sync planner (`src/core/backup.py` 87-210, `src/core/scanner.py`
469-500) -/

/-- The local filesystem as seen through `os.stat`: `some size` when the path
exists, `none` for the `OSError` of a missing path. -/
def LocalStat : Type := String → Option Int

/-- `FileToSync` (backup.py 51-58). -/
structure FileToSync where
  remote_path : String
  local_path : String
  size : Int
  mtime : String
  needs_sync : Bool
deriving DecidableEq

/-- `BackupManager._get_local_path` (backup.py 87-104): storage-prefix rewrite
followed by `os.path.join` onto the destination root. -/
def get_local_path (destination remote_path : String) : String :=
  if pyStartsWith remote_path "/sdcard/" = true then
    pyPathJoin destination ("internal/" ++ pyDrop remote_path 8)
  else if pyStartsWith remote_path "/storage/emulated/0/" = true then
    pyPathJoin destination ("internal/" ++ pyDrop remote_path 20)
  else if pyStartsWith remote_path "/storage/" = true then
    let parts := pySplitMax (pyDrop remote_path 9) '/' 1
    if parts.length = 2 then
      pyPathJoin destination
        ("sdcard_" ++ parts.headD "" ++ "/" ++ parts.getLastD "")
    else pyPathJoin destination (pyDrop remote_path 1)
  else pyPathJoin destination remote_path

/-- `BackupManager._check_local_file` (backup.py 106-112): stat the path and
compare sizes; `OSError` yields `False`. -/
def check_local_file (stat : LocalStat) (local_path : String)
    (expected_size : Int) : Bool :=
  match stat local_path with
  | some size => decide (size = expected_size)
  | none => false

/-- `BackupManager._check_files_multithread` (backup.py 114-145): the set of
local paths whose check succeeded.  The bounded thread pool evaluates the same
pure stat check for every submitted pair, so the result set is
order-independent; it is modelled as the (deduplicated) list of successful
paths. -/
def check_files_multithread (stat : LocalStat)
    (files : List (String × Int)) : List String :=
  ((files.filter (fun pr => check_local_file stat pr.1 pr.2)).map
    Prod.fst).dedup

/-- Loop body of the categorization loop of `analyze_folder` (backup.py
179-191): build the `FileToSync` record and route it into `to_sync` or
`already_exist` according to the existence-check result. -/
def planStep (existing_paths : List String)
    (acc : List FileToSync × List FileToSync) (pr : FileInfo × String) :
    List FileToSync × List FileToSync :=
  let f : FileToSync :=
    { remote_path := pr.1.path, local_path := pr.2, size := pr.1.size,
      mtime := pr.1.mtime,
      needs_sync := decide (pr.2 ∉ existing_paths) }
  if f.needs_sync then (acc.1 ++ [f], acc.2)
  else (acc.1, acc.2 ++ [f])

/-- The partitioning half of `BackupManager.analyze_folder` (backup.py
160-193): derive local paths, check them against the local tree, and split
the records into `(to_sync, already_exist)`. -/
def analyze_folder_plan (stat : LocalStat) (destination : String)
    (all_files : List FileInfo) : List FileToSync × List FileToSync :=
  let files_with_paths :=
    all_files.map (fun fi => (fi, get_local_path destination fi.path))
  let files_to_check := files_with_paths.map (fun pr => (pr.2, pr.1.size))
  let existing_paths := check_files_multithread stat files_to_check
  files_with_paths.foldl (planStep existing_paths) ([], [])

/-- Extension selection shared by `scan_media_folders` and
`get_all_media_files` (scanner.py 410-414 / 485-487): default category
`media`, and a match-everything pattern when `other` is selected. -/
def scanExtensionsFor (categories : List String) : List String :=
  let cats := if categories = [] then ["media"] else categories
  let exts := get_extensions_for_categories cats
  if exts.2 then ["*"] else exts.1

/-- `get_all_media_files` (scanner.py 469-500), with the remote commands it
issued; `categories = []` models Python's `None` default (both are falsy, so
`categories or ['media']` treats them alike). -/
def get_all_media_files (shell : ShellEnv) (folder : MediaFolder)
    (categories : List String) : List FileInfo × List String :=
  let cats := if categories = [] then ["media"] else categories
  let found :=
    find_media_files shell folder.path (scanExtensionsFor categories)
      SKIP_DIRECTORIES
  (found.1.filter (fun f => is_file_in_categories f.name cats), found.2)

/-- `BackupManager.analyze_folder` (backup.py 147-193): fetch the folder's
records through the remote find, then partition; the second component is the
trace of remote commands the call issued. -/
def analyze_folder (shell : ShellEnv) (stat : LocalStat)
    (destination : String) (folder : MediaFolder)
    (categories : List String) :
    (List FileToSync × List FileToSync) × List String :=
  let fetched := get_all_media_files shell folder categories
  (analyze_folder_plan stat destination fetched.1, fetched.2)

/-! ## Transfer engine (`src/core/backup.py` 17-49, 212-303) -/

/-- `BackupStatus` (backup.py 17-23). -/
inductive BackupStatus where
  | pending
  | in_progress
  | completed
  | cancelled
  | error
deriving DecidableEq

/-- `BackupProgress` (backup.py 26-48). -/
structure BackupProgress where
  total_files : Nat
  completed_files : Nat
  skipped_files : Nat
  failed_files : Nat
  current_file : String
  total_bytes : Int
  completed_bytes : Int
  skipped_bytes : Int
  status : BackupStatus
  error_message : Option String
deriving DecidableEq

/-- Outcome of one iteration body of the `start_backup` loop (backup.py
263-285): `os.makedirs` may raise `OSError` before any pull is attempted;
otherwise `pull_file` returns a boolean or raises `ADBError`. -/
inductive StepResult where
  | mkdirFail (msg : String)
  | pulled (ok : Bool)
  | pullErr (msg : String)
deriving DecidableEq

/-- A remote transfer operation issued over the ADB channel: a single-file
`adb pull`, or a batched `tar` archive stream (`pull_files_tar`). -/
inductive RemoteOp where
  | pull (remote_path : String)
  | tarBatch (remote_paths : List String)
deriving DecidableEq

/-- Environment of one backup run: the per-file transfer outcome, and the
value the shared `_cancelled` flag shows at its `i`-th read (reads happen at
each loop head and once after the loop; `cancel()` only ever sets the flag, so
real observation sequences are monotone). -/
structure RunEnv where
  step : FileToSync → StepResult
  cancelObs : Nat → Bool

/-- State threaded through the `start_backup` loop: the progress object,
the next `_cancelled` read index, the remote operations issued, the local
paths written, the files attempted, and whether the loop has `break`-ed. -/
structure LoopState where
  progress : BackupProgress
  readIdx : Nat
  ops : List RemoteOp
  written : List String
  attempted : List FileToSync
  broke : Bool
deriving DecidableEq

/-- `os.path.basename` for POSIX paths. -/
def pyBasename (p : String) : String :=
  (pySplit p '/').getLastD ""

/-- One iteration of the `start_backup` transfer loop (backup.py 253-288). -/
def backupStep (env : RunEnv) (st : LoopState) (f : FileToSync) : LoopState :=
  if st.broke then st
  else if env.cancelObs st.readIdx then
    { st with
      progress := { st.progress with status := BackupStatus.cancelled },
      readIdx := st.readIdx + 1, broke := true }
  else
    let p1 := { st.progress with current_file := pyBasename f.remote_path }
    let st1 :=
      { st with
        progress := p1, readIdx := st.readIdx + 1,
        attempted := st.attempted ++ [f] }
    match env.step f with
    | StepResult.mkdirFail msg =>
      { st1 with
        progress :=
          { p1 with
            failed_files := p1.failed_files + 1,
            error_message := some ("File system error: " ++ msg) } }
    | StepResult.pulled true =>
      { st1 with
        progress :=
          { p1 with
            completed_files := p1.completed_files + 1,
            completed_bytes := p1.completed_bytes + f.size },
        ops := st1.ops ++ [RemoteOp.pull f.remote_path],
        written := st1.written ++ [f.local_path] }
    | StepResult.pulled false =>
      { st1 with
        progress := { p1 with failed_files := p1.failed_files + 1 },
        ops := st1.ops ++ [RemoteOp.pull f.remote_path] }
    | StepResult.pullErr msg =>
      { st1 with
        progress :=
          { p1 with
            failed_files := p1.failed_files + 1,
            error_message := some msg },
        ops := st1.ops ++ [RemoteOp.pull f.remote_path] }

/-- `BackupManager.start_backup` from the point the plan is known (backup.py
228-299): initial progress over the analyzed plan, the sequential transfer
loop with its per-iteration cancellation check, the final flag check that
promotes the status to `COMPLETED`, and the clearing of `current_file`. -/
def start_backup_run (env : RunEnv) (to_sync already_exist : List FileToSync) :
    LoopState :=
  let total_files := to_sync.length + already_exist.length
  let total_bytes :=
    (to_sync.map FileToSync.size).sum + (already_exist.map FileToSync.size).sum
  let skipped_bytes := (already_exist.map FileToSync.size).sum
  let p0 : BackupProgress :=
    { total_files := total_files, completed_files := 0,
      skipped_files := already_exist.length, failed_files := 0,
      current_file := "", total_bytes := total_bytes, completed_bytes := 0,
      skipped_bytes := skipped_bytes, status := BackupStatus.in_progress,
      error_message := none }
  let st0 : LoopState :=
    { progress := p0, readIdx := 0, ops := [], written := [],
      attempted := [], broke := false }
  let st1 := to_sync.foldl (backupStep env) st0
  let st2 :=
    if env.cancelObs st1.readIdx = false then
      { st1 with progress := { st1.progress with status := BackupStatus.completed } }
    else st1
  { st2 with progress := { st2.progress with current_file := "" } }

/-! ## Bulk tar transfer (`src/core/adb.py` 173-277) -/

/-- A member of the streamed tar archive as `tarfile` reports it. -/
structure TarMember where
  name : String
  isFile : Bool
deriving DecidableEq

/-- Observable outcome of the `subprocess.run` + `tarfile.open` pair for one
batch (adb.py 220-230): a timeout, or an exit status with the stdout payload's
truthiness and — when opened — the archive members (`none` models
`tarfile.TarError`). -/
structure BatchResult where
  timedOut : Bool
  returncode : Int
  stdoutNonempty : Bool
  tarMembers : Option (List TarMember)
deriving DecidableEq

/-- Names bound at module level in `src/core/adb.py` (its imports on lines
6-9 and its own definitions).  `os` is absent: adb.py never imports it. -/
def adbModuleNames : List String :=
  ["subprocess", "re", "dataclass", "Optional", "Device", "ADBError",
   "check_adb_available", "get_connected_devices", "get_single_device",
   "shell_command", "pull_file", "pull_files_tar", "list_files",
   "get_file_stat", "find_media_files"]

/-- Names bound locally inside `pull_files_tar` (parameters, the two local
imports on adb.py 193-194, and every assigned variable). -/
def pullFilesTarLocalNames : List String :=
  ["remote_paths", "local_base_dir", "path_mapping", "device_serial",
   "progress_callback", "tarfile", "io", "success", "failed", "batch_size",
   "total", "batch_start", "batch", "files_arg", "tar_cmd", "cmd", "result",
   "tar_data", "tar", "member", "remote_path", "local_rel", "local_path",
   "src", "dst"]

/-- Python builtins consulted after locals and module globals. -/
def pyBuiltinNames : List String :=
  ["len", "range", "print", "int", "str", "open", "set", "dict", "list",
   "tuple", "enumerate", "zip", "sorted", "sum", "min", "max", "abs",
   "isinstance", "type", "Exception", "OSError", "ValueError", "callable"]

/-- Python name resolution for `os` inside `pull_files_tar`: local scope,
then the adb module's globals, then builtins; an unbound name raises
`NameError`. -/
def resolveOsName : Except String Unit :=
  if "os" ∈ pullFilesTarLocalNames ∨ "os" ∈ adbModuleNames ∨
     "os" ∈ pyBuiltinNames then Except.ok ()
  else Except.error "os"

/-- The extraction loop on the bulk success path (adb.py 231-247): for each
file member whose reconstructed path is in `path_mapping`, the body evaluates
`os.path.join` (adb.py 237) before anything else, so an unbound `os` raises
there; a bound `os` would copy the member and count a success. -/
def extractTarMembers (path_mapping : List (String × String)) :
    List TarMember → Except String Nat
  | [] => Except.ok 0
  | m :: rest =>
    if m.isFile ∧ path_mapping.any (fun kv => kv.1 = "/" ++ m.name) then
      match resolveOsName with
      | Except.error n => Except.error n
      | Except.ok _ =>
        match extractTarMembers path_mapping rest with
        | Except.error n => Except.error n
        | Except.ok s => Except.ok (s + 1)
    else extractTarMembers path_mapping rest

/-- The per-file fallback loop (adb.py 250-258 and 261-269, identical bodies):
for each batch file present in `path_mapping`, the body evaluates
`os.path.join` (adb.py 253/264) first, so an unbound `os` raises; a bound `os`
would run `pull_file` and count the outcome. -/
def fallbackPullBatch (pullOk : String → Bool)
    (path_mapping : List (String × String)) :
    List String → Except String (Nat × Nat)
  | [] => Except.ok (0, 0)
  | p :: rest =>
    if path_mapping.any (fun kv => kv.1 = p) then
      match resolveOsName with
      | Except.error n => Except.error n
      | Except.ok _ =>
        match fallbackPullBatch pullOk path_mapping rest with
        | Except.error n => Except.error n
        | Except.ok sf =>
          if pullOk p then Except.ok (sf.1 + 1, sf.2)
          else Except.ok (sf.1, sf.2 + 1)
    else fallbackPullBatch pullOk path_mapping rest

/-- One batch of `pull_files_tar` (adb.py 206-272): timeout adds the whole
batch to the failure count; a zero exit with a non-empty payload goes through
tar extraction (falling back per-file on `TarError`); any other outcome goes
straight to the per-file fallback. -/
def runTarBatch (br : BatchResult) (pullOk : String → Bool)
    (path_mapping : List (String × String)) (batch : List String) :
    Except String (Nat × Nat) :=
  if br.timedOut then Except.ok (0, batch.length)
  else if br.returncode = 0 ∧ br.stdoutNonempty then
    match br.tarMembers with
    | some members =>
      match extractTarMembers path_mapping members with
      | Except.error n => Except.error n
      | Except.ok s => Except.ok (s, 0)
    | none => fallbackPullBatch pullOk path_mapping batch
  else fallbackPullBatch pullOk path_mapping batch

/-- Fixed-size batching (`range(0, total, batch_size)` with slices,
adb.py 202-207). -/
def chunkList (n : Nat) : List String → List (List String)
  | [] => []
  | x :: xs => (x :: xs.take (n - 1)) :: chunkList n (xs.drop (n - 1))
  termination_by l => l.length
  decreasing_by simp; omega

/-- The batch loop of `pull_files_tar`, indexed so batch `i` observes
`env i`. -/
def pullFilesTarGo (env : Nat → BatchResult) (pullOk : String → Bool)
    (path_mapping : List (String × String)) :
    Nat → Nat × Nat → List (List String) → Except String (Nat × Nat)
  | _, acc, [] => Except.ok acc
  | i, acc, b :: rest =>
    match runTarBatch (env i) pullOk path_mapping b with
    | Except.error n => Except.error n
    | Except.ok sf =>
      pullFilesTarGo env pullOk path_mapping (i + 1)
        (acc.1 + sf.1, acc.2 + sf.2) rest

/-- `pull_files_tar` (adb.py 173-277): `Except.ok (success, fail)` models a
normal return, `Except.error n` the propagation of `NameError: name n is not
defined`.  `env` gives each batch's remote tar outcome, `pullOk` the result a
fallback `pull_file` would have. -/
def pull_files_tar (env : Nat → BatchResult) (pullOk : String → Bool)
    (remote_paths : List String)
    (path_mapping : List (String × String)) : Except String (Nat × Nat) :=
  if remote_paths = [] then Except.ok (0, 0)
  else pullFilesTarGo env pullOk path_mapping 0 (0, 0)
    (chunkList 100 remote_paths)

/-- The execution paths of one batch that touch an `os.*` call site: on the
bulk success path a file member listed in `path_mapping`, on the `TarError`
and command-failure paths a batch file listed in `path_mapping`. -/
def reachesOsSite (br : BatchResult)
    (path_mapping : List (String × String)) (batch : List String) : Prop :=
  if br.timedOut then False
  else if br.returncode = 0 ∧ br.stdoutNonempty then
    match br.tarMembers with
    | some members =>
      ∃ m ∈ members, m.isFile ∧ ∃ kv ∈ path_mapping, kv.1 = "/" ++ m.name
    | none => ∃ p ∈ batch, ∃ kv ∈ path_mapping, kv.1 = p
  else ∃ p ∈ batch, ∃ kv ∈ path_mapping, kv.1 = p

/-! ## Specification-side definitions (worded after the claims, for the
refinement statements that compare them with the source translations) -/

/-- Claim C1's comparison criterion, in the specification's words: "a local
file exists at the derived local path and its stat size equals the record's
remote size". -/
def localSizeMatches (stat : LocalStat) (destination : String)
    (fi : FileInfo) : Bool :=
  decide (stat (get_local_path destination fi.path) = some fi.size)

/-- The `FileToSync` record the planner derives for a file record. -/
def plannedRecord (stat : LocalStat) (destination : String)
    (fi : FileInfo) : FileToSync :=
  { remote_path := fi.path,
    local_path := get_local_path destination fi.path, size := fi.size,
    mtime := fi.mtime,
    needs_sync := !(localSizeMatches stat destination fi) }

/-- Claim C2's transfer policy, in the specification's words: a file is pulled
individually only as the retry of a failed bulk batch that contained it. -/
def bulkFirstPolicy (ops : List RemoteOp) : Prop :=
  ∀ p, RemoteOp.pull p ∈ ops →
    ∃ b, RemoteOp.tarBatch b ∈ ops ∧ p ∈ b

/-- Recognizer for bulk tar batch operations. -/
def isTarBatchOp : RemoteOp → Bool
  | RemoteOp.tarBatch _ => true
  | RemoteOp.pull _ => false

/-- Claim C6's expand test, in the specification's words: the relative path
"lies under a configured expand prefix", i.e. is a strict descendant of an
entry of `EXPAND_DIRECTORIES`. -/
def liesUnderExpand (relative : String) : Prop :=
  ∃ e ∈ EXPAND_DIRECTORIES, pyStartsWith relative (e ++ "/") = true

instance liesUnderExpandDecidable (relative : String) :
    Decidable (liesUnderExpand relative) := by
  unfold liesUnderExpand
  infer_instance

/-- Claim C10's well-formedness test, in the specification's words: "a line
split on the delimiter into exactly three fields with a numeric size". -/
def specWellFormedLine (line : String) : Bool :=
  decide ((pySplitMax line '|' 2).length = 3) &&
  (pyInt ((pySplitMax line '|' 2).headD "")).isSome

/-- The record of a well-formed listing line: numeric size, modification time
with fractional seconds truncated, full path and its basename. -/
def specLineRecord (line : String) : FileInfo :=
  let parts := pySplitMax line '|' 2
  let path := parts.getD 2 ""
  { path := path,
    name :=
      if pyContainsChar path '/' then (pySplit path '/').getLastD ""
      else path,
    size := (pyInt (parts.headD "")).getD 0,
    mtime := (pySplit (parts.getD 1 "") '.').headD "",
    is_dir := false }

/-- Lines of the `ls -1 /storage/` output that `get_storage_roots`
iterates over. -/
def lsStorageLines (shell : ShellEnv) : List String :=
  match shell "ls -1 /storage/ 2>/dev/null" with
  | ShellResult.err => []
  | ShellResult.ok out => pySplit (pyStrip out) '\n'

/-! ## Concrete instances used by witnesses, counterexamples and scenario
checks -/

/-- Remote record of the C1/C8 scenario: `internal/DCIM/a.jpg`, size 100. -/
def fiA : FileInfo :=
  { path := "/storage/emulated/0/DCIM/a.jpg", name := "a.jpg", size := 100,
    mtime := "1700000000", is_dir := false }

/-- Local tree holding `internal/DCIM/a.jpg` at size 100. -/
def statHit : LocalStat :=
  fun p => if p = "internal/DCIM/a.jpg" then some 100 else none

/-- Local tree holding `internal/DCIM/a.jpg` at size 90 (size mismatch). -/
def statMiss : LocalStat :=
  fun p => if p = "internal/DCIM/a.jpg" then some 90 else none

/-- Empty local tree. -/
def statNone : LocalStat := fun _ => none

/-- A pending transfer record for the C2/C9 runs. -/
def ftsA : FileToSync :=
  { remote_path := "/storage/emulated/0/DCIM/a.jpg",
    local_path := "internal/DCIM/a.jpg", size := 100,
    mtime := "1700000000", needs_sync := true }

/-- A second pending transfer record. -/
def ftsB : FileToSync :=
  { remote_path := "/storage/emulated/0/DCIM/b.jpg",
    local_path := "internal/DCIM/b.jpg", size := 200,
    mtime := "1700000001", needs_sync := true }

/-- Run environment where every pull succeeds and cancel is never
requested. -/
def envAllOk : RunEnv :=
  { step := fun _ => StepResult.pulled true, cancelObs := fun _ => false }

/-- Run environment where every pull succeeds and the cancel flag turns on
after the first loop iteration's check (reads 1, 2, … see it set). -/
def envCancelAfterOne : RunEnv :=
  { step := fun _ => StepResult.pulled true,
    cancelObs := fun i => decide (1 ≤ i) }

/-- Remote channel that answers every command with empty output. -/
def shellEmptyOk : ShellEnv := fun _ => ShellResult.ok ""

/-- Remote channel on which every command fails (`ADBError`). -/
def shellErrAll : ShellEnv := fun _ => ShellResult.err

/-- A scanned folder handed to the sync planner. -/
def folderDCIM : MediaFolder :=
  { path := "/storage/emulated/0/DCIM", name := "DCIM", file_count := 1,
    photo_count := 1, video_count := 0, total_size := 100,
    storage_type := "Interno", storage_root := "/storage/emulated/0",
    files := [fiA] }

/-- Input records of the C6 aggregation scenario. -/
def c6Files : List FileInfo :=
  [{ path := "/root/DCIM/a.jpg", name := "a.jpg", size := 100, mtime := "",
     is_dir := false },
   { path := "/root/DCIM/b.jpg", name := "b.jpg", size := 200, mtime := "",
     is_dir := false },
   { path := "/root/Pictures/c.png", name := "c.png", size := 50,
     mtime := "", is_dir := false }]

/-- Expected `DCIM` folder of the C6 scenario. -/
def c6DCIM : MediaFolder :=
  { path := "/root/DCIM", name := "DCIM", file_count := 2, photo_count := 2,
    video_count := 0, total_size := 300, storage_type := "Interno",
    storage_root := "/root",
    files := [{ path := "/root/DCIM/a.jpg", name := "a.jpg", size := 100,
                mtime := "", is_dir := false },
              { path := "/root/DCIM/b.jpg", name := "b.jpg", size := 200,
                mtime := "", is_dir := false }] }

/-- Expected `Pictures` folder of the C6 scenario. -/
def c6Pictures : MediaFolder :=
  { path := "/root/Pictures", name := "Pictures", file_count := 1,
    photo_count := 1, video_count := 0, total_size := 50,
    storage_type := "Interno", storage_root := "/root",
    files := [{ path := "/root/Pictures/c.png", name := "c.png", size := 50,
                mtime := "", is_dir := false }] }

/-- Remote channel of the C8 scenario: `/sdcard` resolves to
`/storage/emulated/0`, `/storage/` lists `1234-5678`, which resolves to the
same canonical path. -/
def shellC8 : ShellEnv := fun cmd =>
  if cmd = "readlink -f /sdcard" then ShellResult.ok "/storage/emulated/0\n"
  else if cmd = "ls -1 /storage/ 2>/dev/null" then
    ShellResult.ok "emulated\nself\n1234-5678\n"
  else if cmd = "readlink -f \"/storage/1234-5678\" 2>/dev/null" then
    ShellResult.ok "/storage/emulated/0\n"
  else if cmd = "[ -d \"/storage/1234-5678\" ] && echo \"ok\"" then
    ShellResult.ok "ok\n"
  else ShellResult.err

/-- Bulk batch outcome: command failed with status 1 and empty payload. -/
def batchCmdFailed : BatchResult :=
  { timedOut := false, returncode := 1, stdoutNonempty := false,
    tarMembers := none }

/-- Tar environment where every batch's bulk command fails. -/
def tarEnvFail : Nat → BatchResult := fun _ => batchCmdFailed

/-- Path mapping of the C3 witness batch. -/
def mappingC3 : List (String × String) :=
  [("/sdcard/DCIM/a.jpg", "internal/DCIM/a.jpg")]

/-- Listing output of the C10 witness: one well-formed line between a
malformed line (no delimiter) and a line with a non-numeric size. -/
def outC10 : String :=
  "garbage\n100|1700000000.123|/storage/emulated/0/DCIM/a.jpg\nx9|5|/p"

/-- Remote channel answering every command with `outC10`. -/
def shellC10 : ShellEnv := fun _ => ShellResult.ok outC10

/-! ## String lemmas -/

theorem consHead_ne_nil (c : Char) (l : List (List Char)) :
    consHead c l ≠ [] := by
  cases l <;> simp [consHead]

theorem splitCharList_ne_nil (sep : Char) (l : List Char) :
    splitCharList sep l ≠ [] := by
  induction l with
  | nil => simp [splitCharList]
  | cons c rest ih =>
    simp only [splitCharList]
    split
    · simp
    · exact consHead_ne_nil c _

theorem splitMaxGo_ne_nil (sep : Char) (fuel : Nat) (l : List Char) :
    splitMaxGo sep fuel l ≠ [] := by
  induction l generalizing fuel with
  | nil => cases fuel <;> simp [splitMaxGo]
  | cons c rest ih =>
    cases fuel with
    | zero => simp [splitMaxGo]
    | succ fuel =>
      simp only [splitMaxGo]
      split
      · simp
      · exact consHead_ne_nil c _

theorem sep_not_mem_of_mem_splitCharList (sep : Char) (l : List Char) :
    ∀ p ∈ splitCharList sep l, sep ∉ p := by
  induction l with
  | nil =>
    intro p hp
    simp [splitCharList] at hp
    simp [hp]
  | cons c rest ih =>
    intro p hp
    simp only [splitCharList] at hp
    by_cases hc : c = sep
    · simp [hc] at hp
      rcases hp with hp | hp
      · simp [hp]
      · exact ih p hp
    · simp [hc] at hp
      rcases hsp : splitCharList sep rest with _ | ⟨h0, t⟩
      · exact absurd hsp (splitCharList_ne_nil sep rest)
      · rw [hsp] at hp
        simp [consHead] at hp
        rcases hp with hp | hp
        · subst hp
          intro hmem
          rcases List.mem_cons.mp hmem with h | h
          · exact hc h.symm
          · exact ih h0 (by rw [hsp]; exact List.mem_cons_self h0 t) h
        · exact ih p (by rw [hsp]; exact List.mem_cons_of_mem h0 hp)

theorem splitCharList_append_sep (sep : Char) (xs ys : List Char)
    (h : sep ∉ xs) :
    splitCharList sep (xs ++ sep :: ys) = xs :: splitCharList sep ys := by
  induction xs with
  | nil => simp [splitCharList]
  | cons c xs ih =>
    have hc : ¬ c = sep := fun he => h (he ▸ List.mem_cons_self c xs)
    have hx : sep ∉ xs := fun hm => h (List.mem_cons_of_mem c hm)
    rw [List.cons_append]
    simp only [splitCharList, hc, if_false]
    rw [ih hx]
    simp [consHead]

theorem joinChar_splitCharList (sep : Char) (l : List Char) :
    joinChar sep (splitCharList sep l) = l := by
  induction l with
  | nil => simp [splitCharList, joinChar]
  | cons c rest ih =>
    simp only [splitCharList]
    by_cases hc : c = sep
    · subst hc
      simp only [if_pos rfl]
      rcases hsp : splitCharList c rest with _ | ⟨h0, t⟩
      · exact absurd hsp (splitCharList_ne_nil c rest)
      · rw [hsp] at ih
        simp [joinChar, ih]
    · simp only [hc, if_false]
      rcases hsp : splitCharList sep rest with _ | ⟨h0, t⟩
      · exact absurd hsp (splitCharList_ne_nil sep rest)
      · rw [hsp] at ih
        cases t with
        | nil =>
          simp [joinChar] at ih
          simp [consHead, joinChar, ih]
        | cons y t' =>
          simp only [joinChar] at ih
          simp [consHead, joinChar, ih]

theorem append_sep_inj (sep : Char) {xs xs2 ys ys2 : List Char}
    (h : sep ∉ xs) (h2 : sep ∉ xs2)
    (he : xs ++ sep :: ys = xs2 ++ sep :: ys2) : xs = xs2 ∧ ys = ys2 := by
  induction xs generalizing xs2 with
  | nil =>
    cases xs2 with
    | nil => simpa using he
    | cons c2 t2 =>
      simp at he
      exact absurd (he.1 ▸ List.mem_cons_self c2 t2) h2
  | cons c t ih =>
    cases xs2 with
    | nil =>
      simp at he
      exact absurd (he.1 ▸ List.mem_cons_self c t) h
    | cons c2 t2 =>
      simp at he
      have ht : sep ∉ t := fun hm => h (List.mem_cons_of_mem c hm)
      have ht2 : sep ∉ t2 := fun hm => h2 (List.mem_cons_of_mem c2 hm)
      have := ih ht ht2 he.2
      exact ⟨by simp [he.1, this.1], this.2⟩

theorem mem_of_splitMaxGo_length (sep : Char) (fuel : Nat) (l : List Char)
    (h : 2 ≤ (splitMaxGo sep fuel l).length) : sep ∈ l := by
  induction l generalizing fuel with
  | nil => cases fuel <;> simp [splitMaxGo] at h
  | cons c rest ih =>
    cases fuel with
    | zero => simp [splitMaxGo] at h
    | succ fuel =>
      by_cases hc : c = sep
      · simp [hc]
      · simp only [splitMaxGo, hc, if_false] at h
        rcases hsp : splitMaxGo sep (fuel + 1) rest with _ | ⟨h0, t⟩
        · exact absurd hsp (splitMaxGo_ne_nil sep (fuel + 1) rest)
        · rw [hsp] at h
          simp [consHead] at h
          have : 2 ≤ (splitMaxGo sep (fuel + 1) rest).length := by
            rw [hsp]; simpa using h
          exact List.mem_cons_of_mem c (ih (fuel + 1) this)

theorem toList_mk (l : List Char) : String.toList ⟨l⟩ = l := rfl

theorem toList_append (a b : String) :
    (a ++ b).toList = a.toList ++ b.toList := rfl

/-! ## Category classifier lemmas and claim C7 -/

theorem getExts_shift (cats : List String) (acc : List String × Bool) :
    cats.foldl getExtsStep acc =
      (acc.1 ++ (cats.foldl getExtsStep ([], false)).1,
       acc.2 || (cats.foldl getExtsStep ([], false)).2) := by
  induction cats generalizing acc with
  | nil => simp
  | cons c rest ih =>
    simp only [List.foldl_cons]
    rw [ih (getExtsStep acc c), ih (getExtsStep ([], false) c)]
    unfold getExtsStep
    split
    · simp
    · split
      · simp
      · simp

theorem categoryTable_of_unknown (c : String)
    (h : (FILE_CATEGORIES.find? (fun e => e.1 = c)).isSome = false) :
    categoryTable c = [] := by
  have hn : FILE_CATEGORIES.find? (fun e => e.1 = c) = none :=
    Option.not_isSome_iff_eq_none.mp (by simp [h])
  simp [categoryTable, hn]

theorem mem_stepExts (ext c : String) :
    ext ∈ (getExtsStep ([], false) c).1 ↔
      (c ≠ "other" ∧ ext ∈ categoryTable c) := by
  unfold getExtsStep
  split
  · rename_i h
    subst h
    simp [categoryTable, FILE_CATEGORIES]
  · rename_i h
    split
    · simp [h]
    · rename_i h2
      simp only [Bool.not_eq_true] at h2
      rw [categoryTable_of_unknown c h2]
      simp [h]

theorem stepExts_other (c : String) :
    (getExtsStep ([], false) c).2 = true ↔ c = "other" := by
  unfold getExtsStep
  split
  · rename_i h; simp [h]
  · rename_i h
    split <;> simp [h]

theorem mem_getExts (ext : String) (cats : List String) :
    ext ∈ (get_extensions_for_categories cats).1 ↔
      ∃ c ∈ cats, c ≠ "other" ∧ ext ∈ categoryTable c := by
  induction cats with
  | nil => simp [get_extensions_for_categories]
  | cons c rest ih =>
    unfold get_extensions_for_categories at *
    simp only [List.foldl_cons]
    rw [getExts_shift rest (getExtsStep ([], false) c)]
    simp only [List.mem_append, ih, mem_stepExts]
    constructor
    · rintro (h | ⟨c2, hc2, h⟩)
      · exact ⟨c, List.mem_cons_self c rest, h⟩
      · exact ⟨c2, List.mem_cons_of_mem c hc2, h⟩
    · rintro ⟨c2, hc2, h⟩
      rcases List.mem_cons.mp hc2 with he | hm
      · exact Or.inl (he ▸ h)
      · exact Or.inr ⟨c2, hm, h⟩

theorem getExts_other (cats : List String) :
    (get_extensions_for_categories cats).2 = true ↔ "other" ∈ cats := by
  induction cats with
  | nil => simp [get_extensions_for_categories]
  | cons c rest ih =>
    unfold get_extensions_for_categories at *
    simp only [List.foldl_cons]
    rw [getExts_shift rest (getExtsStep ([], false) c)]
    simp only [Bool.or_eq_true, ih, stepExts_other, List.mem_cons]
    constructor
    · rintro (h | h)
      · exact Or.inl h.symm
      · exact Or.inr h
    · rintro (h | h)
      · exact Or.inl h.symm
      · exact Or.inr h

theorem empty_not_in_categoryTable (c : String) :
    ("" : String) ∉ categoryTable c := by
  unfold categoryTable
  rcases hf : List.find? (fun e => e.1 = c) FILE_CATEGORIES with _ | e
  · simp [hf]
  · have hmem := List.mem_of_find?_eq_some hf
    rw [hf]
    simp only [Option.map_some', Option.getD_some]
    fin_cases hmem <;> decide

/-- C7: category classification is total — a filename matches a selected
non-`other` category exactly when its lowercased last-dot extension is in
that category's table, matches `other` exactly when the extension is unknown
to every table, and a filename without a `.` matches only `other`. -/
theorem C7_classification_total (filename : String)
    (categories : List String) :
    (is_file_in_categories filename categories = true ↔
      ((∃ c ∈ categories, c ≠ "other" ∧
          fileExtOf filename ∈ categoryTable c) ∨
       ("other" ∈ categories ∧
          fileExtOf filename ∉ ALL_KNOWN_EXTENSIONS))) ∧
    (pyContainsChar filename '.' = false →
      (is_file_in_categories filename categories = true ↔
        "other" ∈ categories)) := by
  have hmain : is_file_in_categories filename categories = true ↔
      ((∃ c ∈ categories, c ≠ "other" ∧
          fileExtOf filename ∈ categoryTable c) ∨
       ("other" ∈ categories ∧
          fileExtOf filename ∉ ALL_KNOWN_EXTENSIONS)) := by
    by_cases h1 : fileExtOf filename ∈
        (get_extensions_for_categories categories).1
    · simp only [is_file_in_categories, if_pos h1]
      exact iff_of_true (by simp) (Or.inl ((mem_getExts _ _).mp h1))
    · by_cases h2 : (get_extensions_for_categories categories).2 = true ∧
          fileExtOf filename ∉ ALL_KNOWN_EXTENSIONS
      · simp only [is_file_in_categories, if_neg h1, if_pos h2]
        exact iff_of_true (by simp)
          (Or.inr ⟨(getExts_other categories).mp h2.1, h2.2⟩)
      · simp only [is_file_in_categories, if_neg h1, if_neg h2]
        apply iff_of_false (by simp)
        rintro (h | ⟨ho, hn⟩)
        · exact h1 ((mem_getExts _ _).mpr h)
        · exact h2 ⟨(getExts_other categories).mpr ho, hn⟩
  refine ⟨hmain, fun h => ?_⟩
  have hext : fileExtOf filename = "" := by
    simp [fileExtOf, h]
  rw [hmain, hext]
  have hnall : ("" : String) ∉ ALL_KNOWN_EXTENSIONS := by decide
  constructor
  · rintro (⟨c, _, _, hc⟩ | ⟨ho, _⟩)
    · exact absurd hc (empty_not_in_categoryTable c)
    · exact ho
  · intro ho
    exact Or.inr ⟨ho, hnall⟩

/-- Witness for C7 at a concrete extensionless filename. -/
theorem C7_witness :
    pyContainsChar "README" '.' = false ∧
    (is_file_in_categories "README" ["other"] = true ↔
      "other" ∈ ["other"]) :=
  ⟨by decide, (C7_classification_total "README" ["other"]).2 (by decide)⟩

/-! ## Aggregation invariants and claim C5 -/

theorem dictUpdate_forall {P : String × FolderStats → Prop}
    {g : FolderStats → FolderStats} {k : String}
    {m : List (String × FolderStats)}
    (hg : ∀ k0 v, P (k0, v) → P (k0, g v))
    (hm : ∀ e ∈ m, P e) :
    ∀ e ∈ dictUpdate m k g, P e := by
  induction m with
  | nil => intro e he; simp [dictUpdate] at he
  | cons e0 rest ih =>
    intro e he
    rcases e0 with ⟨k0, v⟩
    simp only [dictUpdate] at he
    by_cases hk : k0 = k
    · rw [if_pos hk] at he
      rcases List.mem_cons.mp he with he | he
      · subst he; exact hg k0 v (hm (k0, v) (List.mem_cons_self _ _))
      · exact hm e (List.mem_cons_of_mem _ he)
    · rw [if_neg hk] at he
      rcases List.mem_cons.mp he with he | he
      · subst he; exact hm (k0, v) (List.mem_cons_self _ _)
      · exact ih (fun e2 h2 => hm e2 (List.mem_cons_of_mem _ h2)) e he

theorem aggStep_good (storage_root : String)
    (m : List (String × FolderStats)) (fi : FileInfo)
    (hm : ∀ e ∈ m, e.2.size = (e.2.file_list.map FileInfo.size).sum ∧
      e.2.files = e.2.file_list.length) :
    ∀ e ∈ aggStep storage_root m fi,
      e.2.size = (e.2.file_list.map FileInfo.size).sum ∧
      e.2.files = e.2.file_list.length := by
  simp only [aggStep]
  refine dictUpdate_forall ?_ ?_
  · intro k0 v hv
    dsimp only
    split
    · split
      · exact ⟨by simpa using hv.1, by simpa using hv.2⟩
      · exact ⟨by simpa using hv.1, by simpa using hv.2⟩
    · exact ⟨by simpa using hv.1, by simpa using hv.2⟩
  · intro e he
    split at he
    · exact hm e he
    · rcases List.mem_append.mp he with he | he
      · exact hm e he
      · simp only [List.mem_singleton] at he
        subst he
        exact ⟨by simp, by simp⟩

theorem foldl_aggStep_good (storage_root : String) (files : List FileInfo) :
    ∀ m : List (String × FolderStats),
      (∀ e ∈ m, e.2.size = (e.2.file_list.map FileInfo.size).sum ∧
        e.2.files = e.2.file_list.length) →
      ∀ e ∈ files.foldl (aggStep storage_root) m,
        e.2.size = (e.2.file_list.map FileInfo.size).sum ∧
        e.2.files = e.2.file_list.length := by
  induction files with
  | nil => intro m hm; simpa using hm
  | cons fi rest ih =>
    intro m hm
    simp only [List.foldl_cons]
    exact ih _ (aggStep_good storage_root m fi hm)

theorem stableInsert_perm (le : MediaFolder → MediaFolder → Bool)
    (x : MediaFolder) (l : List MediaFolder) :
    (stableInsert le x l).Perm (x :: l) := by
  induction l with
  | nil => simp [stableInsert]
  | cons y ys ih =>
    simp only [stableInsert]
    split
    · exact (List.Perm.cons y ih).trans (List.Perm.swap x y ys)
    · exact List.Perm.refl _

theorem pyStableSort_perm (le : MediaFolder → MediaFolder → Bool)
    (l : List MediaFolder) : (pyStableSort le l).Perm l := by
  induction l with
  | nil => exact List.Perm.refl _
  | cons x xs ih =>
    simp only [pyStableSort]
    exact (stableInsert_perm le x _).trans (List.Perm.cons x ih)

/-- C5: in every aggregated folder, `total_size` is the sum of the recorded
files' sizes and `file_count` is the number of recorded files. -/
theorem C5_folder_totals (files : List FileInfo)
    (storage_root storage_type : String) (folder : MediaFolder)
    (h : folder ∈ aggregate_files_to_folders files storage_root storage_type) :
    folder.total_size = (folder.files.map FileInfo.size).sum ∧
    folder.file_count = folder.files.length := by
  simp only [aggregate_files_to_folders] at h
  have h2 := (pyStableSort_perm folderSortKey _).mem_iff.mp h
  rcases List.mem_map.mp h2 with ⟨e, hemem, hmk⟩
  have hg := foldl_aggStep_good storage_root files []
    (by intro e he; simp at he) e hemem
  rw [← hmk]
  exact ⟨hg.1, hg.2⟩

/-- Witness for C5 on the C6 scenario's `DCIM` folder. -/
theorem C5_witness :
    c6DCIM ∈ aggregate_files_to_folders c6Files "/root" "Interno" ∧
    (c6DCIM.total_size = (c6DCIM.files.map FileInfo.size).sum ∧
     c6DCIM.file_count = c6DCIM.files.length) :=
  ⟨by decide, C5_folder_totals c6Files "/root" "Interno" c6DCIM (by decide)⟩

/-! ## Grouping-key refinement and claim C6 -/

theorem map_toList_map_mk (l : List (List Char)) :
    (l.map (fun x => (⟨x⟩ : String))).map String.toList = l := by
  rw [List.map_map]
  have h : (String.toList ∘ fun x : List Char => (⟨x⟩ : String)) = id := by
    funext x; rfl
  rw [h, List.map_id]

theorem pyJoinChar_map_mk (sep : Char) (l : List (List Char)) :
    pyJoinChar sep (l.map (fun x => (⟨x⟩ : String))) = ⟨joinChar sep l⟩ := by
  simp only [pyJoinChar, map_toList_map_mk]

theorem liesUnderExpand_iff (relative : String) :
    liesUnderExpand relative ↔
      pyStartsWith relative "Android/media/" = true := by
  have h : ("Android/media" ++ "/" : String) = "Android/media/" := rfl
  simp [liesUnderExpand, EXPAND_DIRECTORIES, h]

theorem groupKey_eq_spec (relative : String) :
    groupKey relative =
      if liesUnderExpand relative then
        pyJoinChar '/' ((pySplit relative '/').take 3)
      else (pySplit relative '/').headD "" := by
  by_cases hl : pyStartsWith relative "Android/media/" = true
  · rw [if_pos ((liesUnderExpand_iff relative).mpr hl)]
    have hpre : ("Android/media/".toList) <+: relative.toList := by
      rw [← List.isPrefixOf_iff_prefix]
      exact hl
    rcases hpre with ⟨rest, hrest⟩
    have h1 : ("Android/media/".toList : List Char) =
        "Android".toList ++ '/' :: ("media".toList ++ ['/']) := by decide
    have hL : relative.toList =
        "Android".toList ++ '/' :: ("media".toList ++ '/' :: rest) := by
      rw [← hrest, h1]
      simp
    have hsplit : splitCharList '/' relative.toList =
        "Android".toList :: "media".toList :: splitCharList '/' rest := by
      rw [hL, splitCharList_append_sep '/' _ _ (by decide),
        splitCharList_append_sep '/' _ _ (by decide)]
    have hpos := List.length_pos.mpr (splitCharList_ne_nil '/' rest)
    have hlen : 3 ≤ (pySplit relative '/').length := by
      simp only [pySplit, hsplit, List.length_map, List.length_cons]
      omega
    have htake2 : (pySplit relative '/').take 2 = ["Android", "media"] := by
      simp only [pySplit]
      rw [hsplit]
      rfl
    have hexp : should_expand_directory
        (pyJoinChar '/' ((pySplit relative '/').take 2)) = true := by
      rw [htake2]
      decide
    simp only [groupKey]
    rw [if_pos ⟨hlen, hexp⟩]
  · rw [if_neg (fun hc => hl ((liesUnderExpand_iff relative).mp hc))]
    simp only [groupKey]
    have hcond : ¬ (3 ≤ (pySplit relative '/').length ∧
        should_expand_directory
          (pyJoinChar '/' ((pySplit relative '/').take 2)) = true) := by
      rintro ⟨h3, hexp⟩
      rcases hP : splitCharList '/' relative.toList with _ | ⟨p0, P1⟩
      · exact splitCharList_ne_nil '/' relative.toList hP
      rcases P1 with _ | ⟨p1, P2⟩
      · rw [pySplit, hP] at h3; simp at h3
      rcases P2 with _ | ⟨p2, t⟩
      · rw [pySplit, hP] at h3; simp at h3
      have hp0 : '/' ∉ p0 :=
        sep_not_mem_of_mem_splitCharList '/' relative.toList p0
          (by rw [hP]; exact List.mem_cons_self _ _)
      have hp1 : '/' ∉ p1 :=
        sep_not_mem_of_mem_splitCharList '/' relative.toList p1
          (by rw [hP]; exact List.mem_cons_of_mem _ (List.mem_cons_self _ _))
      have hj2 : pyJoinChar '/' ((pySplit relative '/').take 2) =
          ⟨p0 ++ '/' :: p1⟩ := by
        rw [pySplit, hP]
        have htk : ((p0 :: p1 :: p2 :: t).map
            (fun x => (⟨x⟩ : String))).take 2 =
            ([p0, p1].map (fun x => (⟨x⟩ : String))) := by
          simp
        rw [htk, pyJoinChar_map_mk]
        rfl
      rw [hj2] at hexp
      simp only [should_expand_directory, EXPAND_DIRECTORIES, List.any_cons,
        List.any_nil, Bool.or_false, Bool.or_eq_true, decide_eq_true_eq,
        beq_iff_eq] at hexp
      rcases hexp with hexp | hexp
      · have heq : p0 ++ '/' :: p1 =
            "Android".toList ++ '/' :: "media".toList := by
          have := congrArg String.toList hexp
          simpa using this
        have hinj := append_sep_inj '/' hp0 (by decide) heq
        have hrel : relative.toList =
            "Android".toList ++ '/' :: ("media".toList ++ '/' ::
              joinChar '/' (p2 :: t)) := by
          conv_lhs => rw [← joinChar_splitCharList '/' relative.toList, hP]
          rw [hinj.1, hinj.2]
          rfl
        exact hl (by
          rw [pyStartsWith, List.isPrefixOf_iff_prefix]
          refine ⟨joinChar '/' (p2 :: t), ?_⟩
          rw [hrel]
          have h1 : ("Android/media/".toList : List Char) =
              "Android".toList ++ '/' :: ("media".toList ++ ['/']) := by
            decide
          rw [h1]
          simp)
      · have hpre2 : ("Android/media/".toList : List Char) <+:
            (p0 ++ '/' :: p1) := by
          have := hexp
          rw [pyStartsWith, List.isPrefixOf_iff_prefix] at this
          simpa using this
        have hcnt := hpre2.sublist.count_le '/'
        have hc1 : List.count '/' ("Android/media/".toList) = 2 := by decide
        have hc2 : List.count '/' (p0 ++ '/' :: p1) = 1 := by
          rw [List.count_append, List.count_cons]
          rw [List.count_eq_zero_of_not_mem hp0,
            List.count_eq_zero_of_not_mem hp1]
          simp
        rw [hc1, hc2] at hcnt
        omega
    rw [if_neg hcond]
    have h1 : 1 ≤ (pySplit relative '/').length := by
      have := List.length_pos.mpr (splitCharList_ne_nil '/' relative.toList)
      simp only [pySplit, List.length_map]
      omega
    rw [if_pos h1]

/-- C6: aggregation groups a file under the first segment of its root-relative
path, except that paths lying strictly under a configured expand directory
keep three segments; on the scenario records the result is exactly
`DCIM {2 files, 300 bytes}` then `Pictures {1 file, 50 bytes}`. -/
theorem C6_grouping :
    (∀ relative : String,
      groupKey relative =
        if liesUnderExpand relative then
          pyJoinChar '/' ((pySplit relative '/').take 3)
        else (pySplit relative '/').headD "") ∧
    aggregate_files_to_folders c6Files "/root" "Interno" =
      [c6DCIM, c6Pictures] :=
  ⟨groupKey_eq_spec, by decide⟩

/-! ## Sync-planner lemmas and claim C1 -/

theorem check_local_file_iff (stat : LocalStat) (p : String) (s : Int) :
    check_local_file stat p s = true ↔ stat p = some s := by
  unfold check_local_file
  rcases stat p with _ | sz
  · simp
  · simp

theorem mem_check_files (stat : LocalStat) (pairs : List (String × Int))
    (p : String) :
    p ∈ check_files_multithread stat pairs ↔
      ∃ pr ∈ pairs, pr.1 = p ∧ stat p = some pr.2 := by
  unfold check_files_multithread
  rw [List.mem_dedup]
  constructor
  · intro h
    rcases List.mem_map.mp h with ⟨pr, hmem, hfst⟩
    rcases List.mem_filter.mp hmem with ⟨hmem2, hchk⟩
    refine ⟨pr, hmem2, hfst, ?_⟩
    rw [← hfst]
    exact (check_local_file_iff _ _ _).mp hchk
  · rintro ⟨pr, hmem, hfst, hstat⟩
    refine List.mem_map.mpr ⟨pr, List.mem_filter.mpr ⟨hmem, ?_⟩, hfst⟩
    exact (check_local_file_iff _ _ _).mpr (by rw [hfst]; exact hstat)

theorem mem_existing_iff_of_nodup (stat : LocalStat) (destination : String)
    (all_files : List FileInfo)
    (hnodup : (all_files.map
      (fun fi => get_local_path destination fi.path)).Nodup)
    (fi : FileInfo) (hfi : fi ∈ all_files) :
    get_local_path destination fi.path ∈
      check_files_multithread stat
        (all_files.map
          (fun f2 => (get_local_path destination f2.path, f2.size))) ↔
      stat (get_local_path destination fi.path) = some fi.size := by
  rw [mem_check_files]
  constructor
  · rintro ⟨pr, hmem, hfst, hstat⟩
    rcases List.mem_map.mp hmem with ⟨f2, hf2, hpr⟩
    have hlp : get_local_path destination f2.path =
        get_local_path destination fi.path := by
      rw [← hfst, ← hpr]
    have hinj := List.inj_on_of_nodup_map hnodup hf2 hfi hlp
    subst hinj
    rw [← hpr] at hstat
    exact hstat
  · intro hstat
    exact ⟨(get_local_path destination fi.path, fi.size),
      List.mem_map.mpr ⟨fi, hfi, rfl⟩, rfl, hstat⟩

theorem foldl_planStep_map_eq (existing : List String) (dest : String)
    (l : List FileInfo) :
    ∀ acc : List FileToSync × List FileToSync,
      (l.map (fun fi => (fi, get_local_path dest fi.path))).foldl
          (planStep existing) acc =
        (acc.1 ++ (l.filter (fun fi =>
            decide (get_local_path dest fi.path ∉ existing))).map
            (fun fi =>
              { remote_path := fi.path,
                local_path := get_local_path dest fi.path,
                size := fi.size, mtime := fi.mtime,
                needs_sync :=
                  decide (get_local_path dest fi.path ∉ existing) }),
         acc.2 ++ (l.filter (fun fi =>
            !(decide (get_local_path dest fi.path ∉ existing)))).map
            (fun fi =>
              { remote_path := fi.path,
                local_path := get_local_path dest fi.path,
                size := fi.size, mtime := fi.mtime,
                needs_sync :=
                  decide (get_local_path dest fi.path ∉ existing) })) := by
  induction l with
  | nil => intro acc; simp
  | cons fi rest ih =>
    intro acc
    simp only [List.map_cons, List.foldl_cons]
    by_cases hq : get_local_path dest fi.path ∉ existing
    · have hstep : planStep existing acc (fi, get_local_path dest fi.path) =
          (acc.1 ++
            [{ remote_path := fi.path,
               local_path := get_local_path dest fi.path,
               size := fi.size, mtime := fi.mtime,
               needs_sync :=
                 decide (get_local_path dest fi.path ∉ existing) }],
           acc.2) := by
        simp [planStep, hq]
      rw [hstep, ih]
      simp [hq]
    · have hq2 : get_local_path dest fi.path ∈ existing := not_not.mp hq
      have hstep : planStep existing acc (fi, get_local_path dest fi.path) =
          (acc.1,
           acc.2 ++
            [{ remote_path := fi.path,
               local_path := get_local_path dest fi.path,
               size := fi.size, mtime := fi.mtime,
               needs_sync :=
                 decide (get_local_path dest fi.path ∉ existing) }]) := by
        simp [planStep, hq]
      rw [hstep, ih]
      simp [hq2]

/-- C1: a record lands in `already_exist` exactly when the local file at its
derived path exists with the record's size, and in `to_sync` otherwise
(stated as the full partition; the hypothesis rules out two records aliasing
one local path, which cannot happen for the records of one folder scan). -/
theorem C1_sync_partition (stat : LocalStat) (destination : String)
    (all_files : List FileInfo)
    (hnodup : (all_files.map
      (fun fi => get_local_path destination fi.path)).Nodup) :
    analyze_folder_plan stat destination all_files =
      ((all_files.filter
          (fun fi => !(localSizeMatches stat destination fi))).map
         (plannedRecord stat destination),
       (all_files.filter (localSizeMatches stat destination)).map
         (plannedRecord stat destination)) := by
  simp only [analyze_folder_plan, List.map_map]
  have hcomp : ((fun pr : FileInfo × String => (pr.2, pr.1.size)) ∘
      fun fi => (fi, get_local_path destination fi.path)) =
      fun f2 => (get_local_path destination f2.path, f2.size) := rfl
  rw [hcomp, foldl_planStep_map_eq]
  simp only [List.nil_append]
  have hpt : ∀ fi ∈ all_files,
      decide (get_local_path destination fi.path ∉
        check_files_multithread stat
          (all_files.map
            (fun f2 => (get_local_path destination f2.path, f2.size)))) =
        !(localSizeMatches stat destination fi) := by
    intro fi hfi
    have hiff := mem_existing_iff_of_nodup stat destination all_files hnodup
      fi hfi
    by_cases hm : stat (get_local_path destination fi.path) = some fi.size
    · simp [localSizeMatches, hm, hiff.mpr hm]
    · have hnot : get_local_path destination fi.path ∉
          check_files_multithread stat
            (all_files.map
              (fun f2 => (get_local_path destination f2.path, f2.size))) :=
        fun hc => hm (hiff.mp hc)
      simp [localSizeMatches, hm, hnot]
  have hpt2 : ∀ fi ∈ all_files,
      (!(decide (get_local_path destination fi.path ∉
        check_files_multithread stat
          (all_files.map
            (fun f2 => (get_local_path destination f2.path, f2.size)))))) =
        localSizeMatches stat destination fi := by
    intro fi hfi
    rw [hpt fi hfi, Bool.not_not]
  have hrec : ∀ fi ∈ all_files,
      ({ remote_path := fi.path,
         local_path := get_local_path destination fi.path,
         size := fi.size, mtime := fi.mtime,
         needs_sync :=
           decide (get_local_path destination fi.path ∉
             check_files_multithread stat
               (all_files.map (fun f2 =>
                 (get_local_path destination f2.path, f2.size)))) } :
        FileToSync) = plannedRecord stat destination fi := by
    intro fi hfi
    unfold plannedRecord
    rw [hpt fi hfi]
  simp only [Prod.mk.injEq]
  constructor
  · rw [List.filter_congr hpt]
    exact List.map_congr_left
      (fun fi hfi => hrec fi (List.mem_of_mem_filter hfi))
  · rw [List.filter_congr hpt2]
    exact List.map_congr_left
      (fun fi hfi => hrec fi (List.mem_of_mem_filter hfi))

/-- Witness for C1: the scenario record of size 100 against a local
`internal/DCIM/a.jpg` of size 100 (already present) and of size 90
(to transfer). -/
theorem C1_witness :
    ([fiA].map (fun fi => get_local_path "" fi.path)).Nodup ∧
    analyze_folder_plan statHit "" [fiA] =
      (([fiA].filter (fun fi => !(localSizeMatches statHit "" fi))).map
         (plannedRecord statHit ""),
       ([fiA].filter (localSizeMatches statHit "")).map
         (plannedRecord statHit "")) ∧
    analyze_folder_plan statMiss "" [fiA] =
      (([fiA].filter (fun fi => !(localSizeMatches statMiss "" fi))).map
         (plannedRecord statMiss ""),
       ([fiA].filter (localSizeMatches statMiss "")).map
         (plannedRecord statMiss "")) :=
  ⟨by decide, C1_sync_partition statHit "" [fiA] (by decide),
   C1_sync_partition statMiss "" [fiA] (by decide)⟩

/-! ## Claim C4: the planner issues a remote find (corrected) -/

/-- Counterexample to C4 as stated: a concrete `analyze_folder` invocation
issues a non-empty list of remote commands. -/
theorem C4_counterexample :
    (analyze_folder shellEmptyOk statNone "" folderDCIM []).2 ≠ [] := by
  simp only [analyze_folder, get_all_media_files, find_media_files]
  simp [shellEmptyOk]

/-- C4 as amended: each `analyze_folder` call issues exactly one remote
command — the `find` listing that re-fetches the folder's records — and the
partition itself is the pure function `analyze_folder_plan` of the fetched
records and the local stat results. -/
theorem C4_amended (shell : ShellEnv) (stat : LocalStat)
    (destination : String) (folder : MediaFolder)
    (categories : List String) :
    (analyze_folder shell stat destination folder categories).2 =
      [buildFindCmd folder.path (scanExtensionsFor categories)
        SKIP_DIRECTORIES] ∧
    (analyze_folder shell stat destination folder categories).1 =
      analyze_folder_plan stat destination
        (get_all_media_files shell folder categories).1 := by
  constructor
  · simp only [analyze_folder, get_all_media_files, find_media_files]
    cases h : shell (buildFindCmd folder.path (scanExtensionsFor categories)
        SKIP_DIRECTORIES) <;> simp [h]
  · rfl

/-! ## Claim C2: no bulk-first transfer (corrected) -/

/-- Counterexample to C2 as stated: a fully successful run over one pending
file issues a single-file pull with no preceding (or any) bulk tar batch. -/
theorem C2_counterexample :
    (start_backup_run envAllOk [ftsA] []).ops =
      [RemoteOp.pull "/storage/emulated/0/DCIM/a.jpg"] ∧
    ¬ bulkFirstPolicy (start_backup_run envAllOk [ftsA] []).ops := by
  have hops : (start_backup_run envAllOk [ftsA] []).ops =
      [RemoteOp.pull "/storage/emulated/0/DCIM/a.jpg"] := by decide
  refine ⟨hops, fun h => ?_⟩
  rcases h "/storage/emulated/0/DCIM/a.jpg"
      (by rw [hops]; exact List.mem_singleton.mpr rfl) with ⟨b, hb, _⟩
  rw [hops] at hb
  simp at hb

theorem backupStep_ops_cases (env : RunEnv) (st : LoopState)
    (f : FileToSync) :
    (backupStep env st f).ops = st.ops ∨
      ∃ p, (backupStep env st f).ops = st.ops ++ [RemoteOp.pull p] := by
  unfold backupStep
  split
  · exact Or.inl rfl
  · split
    · exact Or.inl rfl
    · cases henv : env.step f with
      | mkdirFail msg => exact Or.inl rfl
      | pulled ok =>
        cases ok
        · exact Or.inr ⟨f.remote_path, rfl⟩
        · exact Or.inr ⟨f.remote_path, rfl⟩
      | pullErr msg => exact Or.inr ⟨f.remote_path, rfl⟩

theorem foldl_backupStep_no_tar (env : RunEnv) (fs : List FileToSync) :
    ∀ st : LoopState, st.ops.filter isTarBatchOp = [] →
      ((fs.foldl (backupStep env) st).ops.filter isTarBatchOp) = [] := by
  induction fs with
  | nil => intro st hst; simpa using hst
  | cons f rest ih =>
    intro st hst
    simp only [List.foldl_cons]
    apply ih
    rcases backupStep_ops_cases env st f with h | ⟨p, h⟩
    · rw [h]; exact hst
    · rw [h, List.filter_append, hst]
      simp [isTarBatchOp]

/-- C2 as amended: the Transfer Engine transfers every pending file through a
single-file pull from the start; it never issues a bulk tar batch, so the
per-file path is its only strategy rather than a fallback (`pull_files_tar`
is imported by backup.py but never called). -/
theorem C2_amended (env : RunEnv) (to_sync already_exist : List FileToSync) :
    ((start_backup_run env to_sync already_exist).ops.filter
      isTarBatchOp) = [] := by
  simp only [start_backup_run]
  split
  · exact foldl_backupStep_no_tar env to_sync _ (by simp)
  · exact foldl_backupStep_no_tar env to_sync _ (by simp)

/-! ## Transfer-loop lemmas and claim C9 -/

theorem backupStep_of_broke (env : RunEnv) (st : LoopState) (f : FileToSync)
    (h : st.broke = true) : backupStep env st f = st := by
  simp [backupStep, h]

theorem foldl_backupStep_of_broke (env : RunEnv) (fs : List FileToSync) :
    ∀ st : LoopState, st.broke = true →
      fs.foldl (backupStep env) st = st := by
  induction fs with
  | nil => intro st _; rfl
  | cons f rest ih =>
    intro st h
    simp only [List.foldl_cons, backupStep_of_broke env st f h]
    exact ih st h

theorem backupStep_cancel (env : RunEnv) (st : LoopState) (f : FileToSync)
    (hb : st.broke = false) (hc : env.cancelObs st.readIdx = true) :
    backupStep env st f =
      { st with
        progress := { st.progress with status := BackupStatus.cancelled },
        readIdx := st.readIdx + 1, broke := true } := by
  simp [backupStep, hb, hc]

theorem backupStep_pulled_ok (env : RunEnv) (st : LoopState)
    (f : FileToSync) (hb : st.broke = false)
    (hc : env.cancelObs st.readIdx = false)
    (hs : env.step f = StepResult.pulled true) :
    backupStep env st f =
      { progress :=
          { st.progress with
            current_file := pyBasename f.remote_path,
            completed_files := st.progress.completed_files + 1,
            completed_bytes := st.progress.completed_bytes + f.size },
        readIdx := st.readIdx + 1,
        ops := st.ops ++ [RemoteOp.pull f.remote_path],
        written := st.written ++ [f.local_path],
        attempted := st.attempted ++ [f],
        broke := false } := by
  simp [backupStep, hb, hc, hs]

theorem foldl_backupStep_ok_run (env : RunEnv) (fs : List FileToSync) :
    ∀ st : LoopState, st.broke = false →
      (∀ i, i < fs.length → env.cancelObs (st.readIdx + i) = false) →
      (∀ f ∈ fs, env.step f = StepResult.pulled true) →
      (fs.foldl (backupStep env) st).broke = false ∧
      (fs.foldl (backupStep env) st).readIdx = st.readIdx + fs.length ∧
      (fs.foldl (backupStep env) st).progress.completed_files =
        st.progress.completed_files + fs.length ∧
      (fs.foldl (backupStep env) st).progress.status = st.progress.status ∧
      (fs.foldl (backupStep env) st).attempted = st.attempted ++ fs ∧
      (fs.foldl (backupStep env) st).written =
        st.written ++ fs.map FileToSync.local_path := by
  induction fs with
  | nil => intro st hb _ _; simp [hb]
  | cons f rest ih =>
    intro st hb hobs hok
    have hc : env.cancelObs st.readIdx = false := by
      have h0 := hobs 0 (by simp)
      simpa using h0
    simp only [List.foldl_cons,
      backupStep_pulled_ok env st f hb hc (hok f (List.mem_cons_self f rest))]
    have hobs2 : ∀ i, i < rest.length →
        env.cancelObs (st.readIdx + 1 + i) = false := by
      intro i hi
      have h2 := hobs (i + 1) (by simp; omega)
      have he : st.readIdx + (i + 1) = st.readIdx + 1 + i := by omega
      rw [he] at h2
      exact h2
    obtain ⟨b1, b2, b3, b4, b5, b6⟩ := ih
      { progress :=
          { st.progress with
            current_file := pyBasename f.remote_path,
            completed_files := st.progress.completed_files + 1,
            completed_bytes := st.progress.completed_bytes + f.size },
        readIdx := st.readIdx + 1,
        ops := st.ops ++ [RemoteOp.pull f.remote_path],
        written := st.written ++ [f.local_path],
        attempted := st.attempted ++ [f],
        broke := false }
      rfl hobs2 (fun f2 h2 => hok f2 (List.mem_cons_of_mem f h2))
    refine ⟨b1, ?_, ?_, ?_, ?_, ?_⟩
    · rw [b2]; simp; omega
    · rw [b3]; simp; omega
    · rw [b4]
    · rw [b5]; simp
    · rw [b6]; simp

theorem run_loop_cancel_split (env : RunEnv) (l1 : List FileToSync)
    (f : FileToSync) (rest : List FileToSync) (st0 : LoopState)
    (hb : st0.broke = false) (hidx0 : st0.readIdx = 0)
    (hbefore : ∀ i, i < l1.length → env.cancelObs i = false)
    (hN : env.cancelObs l1.length = true)
    (hok : ∀ f2, env.step f2 = StepResult.pulled true) :
    ((l1 ++ f :: rest).foldl (backupStep env) st0).broke = true ∧
    ((l1 ++ f :: rest).foldl (backupStep env) st0).progress.status =
      BackupStatus.cancelled ∧
    ((l1 ++ f :: rest).foldl (backupStep env) st0).progress.completed_files =
      st0.progress.completed_files + l1.length ∧
    ((l1 ++ f :: rest).foldl (backupStep env) st0).readIdx =
      l1.length + 1 ∧
    ((l1 ++ f :: rest).foldl (backupStep env) st0).attempted =
      st0.attempted ++ l1 ∧
    ((l1 ++ f :: rest).foldl (backupStep env) st0).written =
      st0.written ++ l1.map FileToSync.local_path := by
  obtain ⟨a1, a2, a3, a4, a5, a6⟩ :=
    foldl_backupStep_ok_run env l1 st0 hb
      (fun i hi => by rw [hidx0]; simpa using hbefore i hi)
      (fun f2 _ => hok f2)
  rw [List.foldl_append]
  have hidxA : (l1.foldl (backupStep env) st0).readIdx = l1.length := by
    rw [a2, hidx0]; omega
  have hcanc := backupStep_cancel env (l1.foldl (backupStep env) st0) f a1
    (by rw [hidxA]; exact hN)
  simp only [List.foldl_cons, hcanc]
  rw [foldl_backupStep_of_broke env rest _ (by simp)]
  refine ⟨by simp, by simp, ?_, ?_, ?_, ?_⟩
  · simp [a3]
  · simp [hidxA]
  · simp [a5]
  · simp [a6]

/-- C9: with the cancel flag first observed set at the loop's `N`-th check
(`N` < number of pending files) and every pull succeeding, the run ends with
status `Cancelled`, `completed_files = N`, exactly the first `N` files
attempted, and exactly those files' local paths written (completed work is
never rolled back). -/
theorem C9_cancellation (env : RunEnv)
    (to_sync already_exist : List FileToSync) (N : Nat)
    (hmono : ∀ i j, i ≤ j → env.cancelObs i = true →
      env.cancelObs j = true)
    (hbefore : ∀ i, i < N → env.cancelObs i = false)
    (hN : env.cancelObs N = true)
    (hlt : N < to_sync.length)
    (hok : ∀ f, env.step f = StepResult.pulled true) :
    (start_backup_run env to_sync already_exist).progress.status =
      BackupStatus.cancelled ∧
    (start_backup_run env to_sync already_exist).progress.completed_files =
      N ∧
    (start_backup_run env to_sync already_exist).attempted =
      to_sync.take N ∧
    (start_backup_run env to_sync already_exist).written =
      (to_sync.take N).map FileToSync.local_path := by
  obtain ⟨f, rest, hdrop⟩ : ∃ f rest, to_sync.drop N = f :: rest := by
    rcases hd : to_sync.drop N with _ | ⟨f, rest⟩
    · have := List.drop_eq_nil_iff.mp hd
      omega
    · exact ⟨f, rest, rfl⟩
  have htk : (to_sync.take N).length = N := by
    rw [List.length_take]; omega
  have hsplit : to_sync = to_sync.take N ++ f :: rest := by
    conv_lhs => rw [← List.take_append_drop N to_sync]
    rw [hdrop]
  set l1 := to_sync.take N with hl1
  rw [hsplit]
  simp only [start_backup_run]
  obtain ⟨c1, c2, c3, c4, c5, c6⟩ := run_loop_cancel_split env l1 f rest
    { progress :=
        { total_files := (l1 ++ f :: rest).length + already_exist.length,
          completed_files := 0, skipped_files := already_exist.length,
          failed_files := 0, current_file := "",
          total_bytes := ((l1 ++ f :: rest).map FileToSync.size).sum +
            (already_exist.map FileToSync.size).sum,
          completed_bytes := 0,
          skipped_bytes := (already_exist.map FileToSync.size).sum,
          status := BackupStatus.in_progress, error_message := none },
      readIdx := 0, ops := [], written := [], attempted := [],
      broke := false }
    rfl rfl (fun i hi => hbefore i (by omega)) (by rw [htk]; exact hN) hok
  have hobs1 : env.cancelObs (l1.length + 1) = true :=
    hmono l1.length (l1.length + 1) (Nat.le_succ _) (by rw [htk]; exact hN)
  rw [c4]
  rw [if_neg (by simp [hobs1])]
  refine ⟨by simpa using c2, by simpa [htk] using c3, by simpa using c5,
    by simpa using c6⟩

/-- Witness for C9: two pending files, cancel observed at the second check. -/
theorem C9_witness :
    (start_backup_run envCancelAfterOne [ftsA, ftsB] []).progress.status =
      BackupStatus.cancelled ∧
    (start_backup_run envCancelAfterOne
      [ftsA, ftsB] []).progress.completed_files = 1 ∧
    (start_backup_run envCancelAfterOne [ftsA, ftsB] []).attempted =
      [ftsA, ftsB].take 1 ∧
    (start_backup_run envCancelAfterOne [ftsA, ftsB] []).written =
      ([ftsA, ftsB].take 1).map FileToSync.local_path :=
  C9_cancellation envCancelAfterOne [ftsA, ftsB] [] 1
    (fun i j hij hi => by
      have h1 : 1 ≤ i := of_decide_eq_true hi
      exact decide_eq_true (h1.trans hij))
    (fun i hi => by
      have h0 : i = 0 := Nat.lt_one_iff.mp hi
      subst h0
      rfl)
    (by decide) (by decide) (fun f => rfl)

/-! ## Claim C3: `pull_files_tar` raises `NameError` (`os` unbound) -/

theorem resolveOsName_eq : resolveOsName = Except.error "os" := rfl

theorem extractTarMembers_error_name (mapping : List (String × String))
    (ms : List TarMember) (n : String)
    (h : extractTarMembers mapping ms = Except.error n) : n = "os" := by
  induction ms with
  | nil => simp [extractTarMembers] at h
  | cons m rest ih =>
    by_cases hc : m.isFile ∧
        mapping.any (fun kv => kv.1 = "/" ++ m.name) = true
    · rw [extractTarMembers, if_pos hc, resolveOsName_eq] at h
      simpa using h.symm
    · rw [extractTarMembers, if_neg hc] at h
      exact ih h

theorem fallbackPullBatch_error_name (pullOk : String → Bool)
    (mapping : List (String × String)) (batch : List String) (n : String)
    (h : fallbackPullBatch pullOk mapping batch = Except.error n) :
    n = "os" := by
  induction batch with
  | nil => simp [fallbackPullBatch] at h
  | cons p rest ih =>
    by_cases hc : mapping.any (fun kv => kv.1 = p) = true
    · rw [fallbackPullBatch, if_pos hc, resolveOsName_eq] at h
      simpa using h.symm
    · rw [fallbackPullBatch, if_neg hc] at h
      exact ih h

theorem extractTarMembers_err (mapping : List (String × String))
    (ms : List TarMember)
    (h : ∃ m ∈ ms, m.isFile = true ∧
      ∃ kv ∈ mapping, kv.1 = "/" ++ m.name) :
    extractTarMembers mapping ms = Except.error "os" := by
  induction ms with
  | nil => simp at h
  | cons m rest ih =>
    by_cases hc : m.isFile ∧
        mapping.any (fun kv => kv.1 = "/" ++ m.name) = true
    · rw [extractTarMembers, if_pos hc, resolveOsName_eq]
    · rw [extractTarMembers, if_neg hc]
      rcases h with ⟨m2, hm2, hfile, kv, hkv, heq⟩
      rcases List.mem_cons.mp hm2 with he | hmem
      · exfalso
        subst he
        exact hc ⟨hfile, List.any_eq_true.mpr ⟨kv, hkv, by simp [heq]⟩⟩
      · exact ih ⟨m2, hmem, hfile, kv, hkv, heq⟩

theorem fallbackPullBatch_err (pullOk : String → Bool)
    (mapping : List (String × String)) (batch : List String)
    (h : ∃ p ∈ batch, ∃ kv ∈ mapping, kv.1 = p) :
    fallbackPullBatch pullOk mapping batch = Except.error "os" := by
  induction batch with
  | nil => simp at h
  | cons p rest ih =>
    by_cases hc : mapping.any (fun kv => kv.1 = p) = true
    · rw [fallbackPullBatch, if_pos hc, resolveOsName_eq]
    · rw [fallbackPullBatch, if_neg hc]
      rcases h with ⟨p2, hp2, kv, hkv, heq⟩
      rcases List.mem_cons.mp hp2 with he | hmem
      · exfalso
        subst he
        exact hc (List.any_eq_true.mpr ⟨kv, hkv, by simp [heq]⟩)
      · exact ih ⟨p2, hmem, kv, hkv, heq⟩

theorem runTarBatch_error_name (br : BatchResult) (pullOk : String → Bool)
    (mapping : List (String × String)) (batch : List String) (n : String)
    (h : runTarBatch br pullOk mapping batch = Except.error n) : n = "os" := by
  unfold runTarBatch at h
  by_cases ht : br.timedOut = true
  · rw [if_pos ht] at h
    simp at h
  · rw [if_neg ht] at h
    by_cases hrc : br.returncode = 0 ∧ br.stdoutNonempty = true
    · rw [if_pos hrc] at h
      rcases hm : br.tarMembers with _ | ms
      · rw [hm] at h
        dsimp only at h
        exact fallbackPullBatch_error_name pullOk mapping batch n h
      · rw [hm] at h
        dsimp only at h
        rcases he : extractTarMembers mapping ms with n2 | s
        · rw [he] at h
          dsimp only at h
          simp only [Except.error.injEq] at h
          exact h ▸ extractTarMembers_error_name mapping ms n2 he
        · rw [he] at h
          simp at h
    · rw [if_neg hrc] at h
      exact fallbackPullBatch_error_name pullOk mapping batch n h

theorem runTarBatch_err (br : BatchResult) (pullOk : String → Bool)
    (mapping : List (String × String)) (batch : List String)
    (h : reachesOsSite br mapping batch) :
    runTarBatch br pullOk mapping batch = Except.error "os" := by
  unfold reachesOsSite at h
  unfold runTarBatch
  by_cases ht : br.timedOut = true
  · rw [if_pos ht] at h
    exact absurd h (by simp)
  · rw [if_neg ht] at h
    rw [if_neg ht]
    by_cases hrc : br.returncode = 0 ∧ br.stdoutNonempty = true
    · rw [if_pos hrc] at h
      rw [if_pos hrc]
      rcases hm : br.tarMembers with _ | ms
      · rw [hm] at h
        dsimp only at h ⊢
        exact fallbackPullBatch_err pullOk mapping batch h
      · rw [hm] at h
        dsimp only at h ⊢
        rw [extractTarMembers_err mapping ms (by simpa using h)]
    · rw [if_neg hrc] at h
      rw [if_neg hrc]
      exact fallbackPullBatch_err pullOk mapping batch h

theorem pullFilesTarGo_err (env : Nat → BatchResult)
    (pullOk : String → Bool) (mapping : List (String × String))
    (bs : List (List String)) :
    ∀ (i0 : Nat) (acc : Nat × Nat),
      (∃ k, k < bs.length ∧
        reachesOsSite (env (i0 + k)) mapping (bs.getD k [])) →
      pullFilesTarGo env pullOk mapping i0 acc bs = Except.error "os" := by
  induction bs with
  | nil =>
    intro i0 acc h
    rcases h with ⟨k, hk, _⟩
    simp at hk
  | cons b rest ih =>
    intro i0 acc h
    rcases h with ⟨k, hk, hre⟩
    cases k with
    | zero =>
      simp only [Nat.add_zero, List.getD_cons_zero] at hre
      rw [pullFilesTarGo, runTarBatch_err (env i0) pullOk mapping b hre]
    | succ k2 =>
      rcases hr : runTarBatch (env i0) pullOk mapping b with n | sf
      · have hn := runTarBatch_error_name (env i0) pullOk mapping b n hr
        rw [pullFilesTarGo, hr, hn]
      · rw [pullFilesTarGo, hr]
        refine ih (i0 + 1) _ ⟨k2, by simpa using hk, ?_⟩
        have he : i0 + (k2 + 1) = i0 + 1 + k2 := by omega
        rw [he] at hre
        simpa using hre

/-- C3: whenever some batch's remote tar command does not time out and the
execution of that batch handles a file listed in `path_mapping` (a mapped
member on the bulk success path, or a mapped batch file on the `TarError` /
command-failure fallback paths), `pull_files_tar` raises
`NameError: name 'os' is not defined` instead of returning a count —
`adb.py` never imports `os` (`resolveOsName` resolves against the module's
actual bindings). -/
theorem C3_pull_files_tar_name_error (env : Nat → BatchResult)
    (pullOk : String → Bool) (remote_paths : List String)
    (path_mapping : List (String × String))
    (h : ∃ i, i < (chunkList 100 remote_paths).length ∧
      reachesOsSite (env i) path_mapping
        ((chunkList 100 remote_paths).getD i [])) :
    pull_files_tar env pullOk remote_paths path_mapping =
      Except.error "os" := by
  have hne : remote_paths ≠ [] := by
    rintro rfl
    rcases h with ⟨i, hi, _⟩
    simp [chunkList] at hi
  unfold pull_files_tar
  rw [if_neg hne]
  rcases h with ⟨i, hi, hre⟩
  exact pullFilesTarGo_err env pullOk path_mapping _ 0 (0, 0)
    ⟨i, hi, by simpa using hre⟩

/-- Witness for C3: a single one-file batch whose tar command exits with
status 1, the file being listed in the mapping. -/
theorem C3_witness :
    (∃ i, i < (chunkList 100 ["/sdcard/DCIM/a.jpg"]).length ∧
      reachesOsSite (tarEnvFail i) mappingC3
        ((chunkList 100 ["/sdcard/DCIM/a.jpg"]).getD i [])) ∧
    pull_files_tar tarEnvFail (fun _ => true) ["/sdcard/DCIM/a.jpg"]
      mappingC3 = Except.error "os" :=
  ⟨⟨0, by simp [chunkList],
    by simp [chunkList, reachesOsSite, tarEnvFail, batchCmdFailed, mappingC3]⟩,
   C3_pull_files_tar_name_error tarEnvFail (fun _ => true) _ _
     ⟨0, by simp [chunkList],
      by simp [chunkList, reachesOsSite, tarEnvFail, batchCmdFailed,
        mappingC3]⟩⟩

/-! ## Storage-root resolver invariants and claim C8 -/

theorem dictInsert_append_of_fresh (m : List (String × String)) (k x : String)
    (h : ∀ v, (k, v) ∉ m) : dictInsert m k x = m ++ [(k, x)] := by
  induction m with
  | nil => rfl
  | cons e rest ih =>
    rcases e with ⟨k1, v1⟩
    have hne : ¬ k1 = k := fun he => h v1 (by
      rw [← he]
      exact List.mem_cons_self _ _)
    simp only [dictInsert, if_neg hne, List.cons_append]
    rw [ih (fun v hv => h v (List.mem_cons_of_mem _ hv))]

theorem storage_fold_inv (shell : ShellEnv) (lines : List String) :
    ∀ acc : List (String × String) × List String,
      (∀ line ∈ lines,
        "/storage/" ++ pyStrip line ≠ internalPathOf shell) →
      acc.2.Nodup →
      acc.1.length = acc.2.length →
      (∃ v, (internalPathOf shell, v) ∈ acc.1) →
      (∀ e ∈ acc.1, e.1 = internalPathOf shell ∨
        resolveEntry shell e.1 ∈ acc.2) →
      ((lines.foldl (storageRootStep shell) acc).2).Nodup ∧
      (lines.foldl (storageRootStep shell) acc).1.length =
        (lines.foldl (storageRootStep shell) acc).2.length ∧
      (∃ v, (internalPathOf shell, v) ∈
        (lines.foldl (storageRootStep shell) acc).1) ∧
      (∀ e ∈ (lines.foldl (storageRootStep shell) acc).1,
        e.1 = internalPathOf shell ∨
        resolveEntry shell e.1 ∈
          (lines.foldl (storageRootStep shell) acc).2) := by
  induction lines with
  | nil => intro acc _ h1 h2 h3 h4; exact ⟨h1, h2, h3, h4⟩
  | cons line rest ih =>
    intro acc hsafe h1 h2 h3 h4
    simp only [List.foldl_cons]
    have hsafe1 : "/storage/" ++ pyStrip line ≠ internalPathOf shell :=
      hsafe line (List.mem_cons_self _ _)
    have hsaferest : ∀ l ∈ rest,
        "/storage/" ++ pyStrip l ≠ internalPathOf shell :=
      fun l hl => hsafe l (List.mem_cons_of_mem _ hl)
    by_cases hskip : pyStrip line = "" ∨ pyStrip line = "emulated" ∨
        pyStrip line = "self"
    · have hstep : storageRootStep shell acc line = acc := by
        simp [storageRootStep, hskip]
      rw [hstep]
      exact ih acc hsaferest h1 h2 h3 h4
    · by_cases hseen :
          resolveEntry shell ("/storage/" ++ pyStrip line) ∈ acc.2
      · have hstep : storageRootStep shell acc line = acc := by
          simp [storageRootStep, hskip, hseen]
        rw [hstep]
        exact ih acc hsaferest h1 h2 h3 h4
      · rcases hchk : shell ("[ -d \"" ++ ("/storage/" ++ pyStrip line) ++
            "\" ] && echo \"ok\"") with out | _
        by_cases hok2 : pyContainsStr out "ok" = true
        · have hfresh : ∀ v,
              ("/storage/" ++ pyStrip line, v) ∉ acc.1 := by
            intro v hv
            rcases h4 _ hv with he | hr
            · exact hsafe1 he
            · exact hseen hr
          have hstep : storageRootStep shell acc line =
              (acc.1 ++ [("/storage/" ++ pyStrip line,
                 "SD Card (" ++ pyStrip line ++ ")")],
               acc.2 ++ [resolveEntry shell
                 ("/storage/" ++ pyStrip line)]) := by
            simp only [storageRootStep]
            rw [if_neg hskip, if_neg hseen, hchk]
            dsimp only
            rw [if_pos hok2,
              dictInsert_append_of_fresh acc.1 _ _ hfresh]
          rw [hstep]
          refine ih _ hsaferest ?_ ?_ ?_ ?_
          · simp [List.nodup_append, h1, hseen]
          · simp [h2]
          · rcases h3 with ⟨v, hv⟩
            exact ⟨v, List.mem_append_left _ hv⟩
          · intro e he
            rcases List.mem_append.mp he with he | he
            · rcases h4 e he with hi | hr
              · exact Or.inl hi
              · exact Or.inr (List.mem_append_left _ hr)
            · simp only [List.mem_singleton] at he
              subst he
              exact Or.inr (List.mem_append_right _
                (List.mem_singleton.mpr rfl))
        · have hstep : storageRootStep shell acc line = acc := by
            simp only [storageRootStep]
            rw [if_neg hskip, if_neg hseen, hchk]
            dsimp only
            rw [if_neg hok2]
          rw [hstep]
          exact ih acc hsaferest h1 h2 h3 h4
        · have hstep : storageRootStep shell acc line = acc := by
            simp [storageRootStep, hskip, hseen, hchk]
          rw [hstep]
          exact ih acc hsaferest h1 h2 h3 h4

/-- C8: discovery always returns an entry at the internal root path, falls
back to `/storage/emulated/0` when `readlink` fails or yields empty, and —
provided no `ls` line aliases the internal key itself — pairs the returned
roots one-to-one with the pairwise-distinct canonical paths of
`seen_real_paths`, so no two returned roots resolve to the same canonical
path. -/
theorem C8_storage_roots (shell : ShellEnv)
    (hsafe : ∀ line ∈ lsStorageLines shell,
      "/storage/" ++ pyStrip line ≠ internalPathOf shell) :
    (∃ lbl, (internalPathOf shell, lbl) ∈ get_storage_roots shell) ∧
    (shell "readlink -f /sdcard" = ShellResult.err →
      internalPathOf shell = "/storage/emulated/0") ∧
    (∀ out, shell "readlink -f /sdcard" = ShellResult.ok out →
      pyStrip out = "" → internalPathOf shell = "/storage/emulated/0") ∧
    (get_storage_roots_aux shell).2.Nodup ∧
    (get_storage_roots shell).length =
      (get_storage_roots_aux shell).2.length := by
  have hfb1 : shell "readlink -f /sdcard" = ShellResult.err →
      internalPathOf shell = "/storage/emulated/0" := by
    intro h
    simp [internalPathOf, h]
  have hfb2 : ∀ out, shell "readlink -f /sdcard" = ShellResult.ok out →
      pyStrip out = "" → internalPathOf shell = "/storage/emulated/0" := by
    intro out hok hemp
    simp [internalPathOf, hok, hemp]
  rcases hls : shell "ls -1 /storage/ 2>/dev/null" with out | _
  · have haux : get_storage_roots_aux shell =
        (pySplit (pyStrip out) '\n').foldl (storageRootStep shell)
          ([(internalPathOf shell, "Interno")], [internalPathOf shell]) := by
      simp [get_storage_roots_aux, hls]
    have hlines : lsStorageLines shell = pySplit (pyStrip out) '\n' := by
      simp [lsStorageLines, hls]
    obtain ⟨i1, i2, i3, i4⟩ := storage_fold_inv shell
      (pySplit (pyStrip out) '\n')
      ([(internalPathOf shell, "Interno")], [internalPathOf shell])
      (by rw [← hlines]; exact hsafe)
      (by simp) (by simp) ⟨"Interno", by simp⟩
      (by
        intro e he
        simp only [List.mem_singleton] at he
        subst he
        exact Or.inl rfl)
    refine ⟨?_, hfb1, hfb2, ?_, ?_⟩
    · rcases i3 with ⟨v, hv⟩
      exact ⟨v, by rw [get_storage_roots, haux]; exact hv⟩
    · rw [haux]; exact i1
    · rw [get_storage_roots, haux]; exact i2
  · have haux : get_storage_roots_aux shell =
        ([(internalPathOf shell, "Interno")], [internalPathOf shell]) := by
      simp [get_storage_roots_aux, hls]
    refine ⟨⟨"Interno", ?_⟩, hfb1, hfb2, ?_, ?_⟩
    · simp [get_storage_roots, haux]
    · simp [haux]
    · simp [get_storage_roots, haux]

/-- Witness for C8: the scenario device — `/storage/1234-5678` resolves to
the same canonical path as internal storage, so only the internal entry is
returned. -/
theorem C8_witness :
    (∀ line ∈ lsStorageLines shellC8,
      "/storage/" ++ pyStrip line ≠ internalPathOf shellC8) ∧
    ((∃ lbl, (internalPathOf shellC8, lbl) ∈ get_storage_roots shellC8) ∧
     (shellC8 "readlink -f /sdcard" = ShellResult.err →
       internalPathOf shellC8 = "/storage/emulated/0") ∧
     (∀ out, shellC8 "readlink -f /sdcard" = ShellResult.ok out →
       pyStrip out = "" → internalPathOf shellC8 = "/storage/emulated/0") ∧
     (get_storage_roots_aux shellC8).2.Nodup ∧
     (get_storage_roots shellC8).length =
       (get_storage_roots_aux shellC8).2.length) ∧
    get_storage_roots shellC8 = [("/storage/emulated/0", "Interno")] :=
  ⟨by decide, C8_storage_roots shellC8 (by decide), by decide⟩

/-! ## Listing-adapter parse refinement and claim C10 -/

theorem specWF_imp_pipe (line : String)
    (h : (pySplitMax line '|' 2).length = 3) :
    pyContainsChar line '|' = true := by
  have h2 : 2 ≤ (splitMaxGo '|' 2 line.toList).length := by
    simp only [pySplitMax, List.length_map] at h
    omega
  have hm := mem_of_splitMaxGo_length '|' 2 line.toList h2
  simp only [pyContainsChar]
  simpa using hm

theorem foldl_parseLineStep_eq (lines : List String) :
    ∀ acc : List FileInfo,
      lines.foldl parseLineStep acc =
        acc ++ (lines.filter specWellFormedLine).map specLineRecord := by
  induction lines with
  | nil => intro acc; simp
  | cons line rest ih =>
    intro acc
    simp only [List.foldl_cons]
    by_cases hwf : specWellFormedLine line = true
    · have hparts : (pySplitMax line '|' 2).length = 3 := by
        simp only [specWellFormedLine, Bool.and_eq_true, decide_eq_true_eq]
          at hwf
        exact hwf.1
      have hsome : (pyInt ((pySplitMax line '|' 2).headD "")).isSome =
          true := by
        simp only [specWellFormedLine, Bool.and_eq_true] at hwf
        exact hwf.2
      rcases hint : pyInt ((pySplitMax line '|' 2).headD "") with _ | size
      · rw [hint] at hsome
        simp at hsome
      have hpipe := specWF_imp_pipe line hparts
      have hne : ¬(line = "" ∨ pyContainsChar line '|' = false) := by
        rintro (he | hf)
        · rw [he] at hparts
          simp [pySplitMax, splitMaxGo] at hparts
        · rw [hpipe] at hf
          simp at hf
      have hint2 : pyInt ((pySplitMax line '|' 2).head?.getD "") =
          some size := by
        rw [← List.headD_eq_head?]
        exact hint
      have hstep : parseLineStep acc line = acc ++ [specLineRecord line] := by
        simp only [parseLineStep, if_neg hne]
        rw [if_neg (by simp [hparts])]
        rw [hint]
        simp [specLineRecord, hint, hint2]
      rw [hstep, ih]
      simp [List.filter_cons, hwf]
    · have hstep : parseLineStep acc line = acc := by
        by_cases hne : line = "" ∨ pyContainsChar line '|' = false
        · simp [parseLineStep, hne]
        · simp only [parseLineStep, if_neg hne]
          by_cases hparts : (pySplitMax line '|' 2).length = 3
          · rw [if_neg (by simp [hparts])]
            rcases hint : pyInt ((pySplitMax line '|' 2).headD "")
              with _ | size
            · simp [hint]
            · exfalso
              apply hwf
              have hint2 : pyInt ((pySplitMax line '|' 2).head?.getD "") =
                  some size := by
                rw [← List.headD_eq_head?]
                exact hint
              simp [specWellFormedLine, hparts, hint, hint2]
          · rw [if_pos (by simp [hparts])]
      rw [hstep, ih]
      simp [List.filter_cons, hwf]

/-- C10: the listing adapter produces one record for exactly the well-formed
output lines (split on `|` with maxsplit 2 into three fields, numeric size),
skipping malformed ones, and returns the empty listing when the remote
command fails with `ADBError`. -/
theorem C10_listing_parse (shell : ShellEnv) (storage_root : String)
    (extensions exclude_patterns : List String) :
    (shell (buildFindCmd storage_root extensions exclude_patterns) =
        ShellResult.err →
      (find_media_files shell storage_root extensions exclude_patterns).1 =
        []) ∧
    (∀ out,
      shell (buildFindCmd storage_root extensions exclude_patterns) =
        ShellResult.ok out →
      (find_media_files shell storage_root extensions exclude_patterns).1 =
        ((pySplit (pyStrip out) '\n').filter specWellFormedLine).map
          specLineRecord) := by
  constructor
  · intro h
    simp [find_media_files, h]
  · intro out h
    simp only [find_media_files, h, parseFindOutput]
    rw [foldl_parseLineStep_eq]
    simp

/-- Witness for C10: a failing channel yields `[]`; a three-line output with
one well-formed line yields exactly that line's record. -/
theorem C10_witness :
    (shellErrAll (buildFindCmd "/storage/emulated/0" [".jpg"] []) =
      ShellResult.err) ∧
    (find_media_files shellErrAll "/storage/emulated/0" [".jpg"] []).1 =
      [] ∧
    (shellC10 (buildFindCmd "/storage/emulated/0" [".jpg"] []) =
      ShellResult.ok outC10) ∧
    (find_media_files shellC10 "/storage/emulated/0" [".jpg"] []).1 =
      ((pySplit (pyStrip outC10) '\n').filter specWellFormedLine).map
        specLineRecord :=
  ⟨rfl,
   (C10_listing_parse shellErrAll "/storage/emulated/0" [".jpg"] []).1 rfl,
   rfl,
   (C10_listing_parse shellC10 "/storage/emulated/0" [".jpg"] []).2
     outC10 rfl⟩
